import Mathlib

/-!
# Platypus listener core

A shallow embedding of `lib/context/server.go` (client registry, connection
classifier, termite message dispatcher, listener shutdown) and of the block
arithmetic of `lib/cli/dispatcher/download.go`, with the properties of the
specification proved over it.

Conventions of the embedding:

* a Go `string` / `[]byte` is a list of bytes;
* a Go `map[string]V` is an association list read through `GoMap.get`;
* client objects live in a heap indexed by their address, because the
  registries store pointers and `DeleteTCPClient` / `AddTCPClient` mutate the
  object they are handed;
* a runtime panic, or a send that cannot complete, is the result `none`;
* what the network peer does (first read, lines read, probe results) and what
  collaborators outside `server.go` compute are parameters.
-/

namespace Platypus

/-! ## Bytes and Go maps -/

/-- A Go `string` or `[]byte`: a finite sequence of bytes. -/
abbrev Bytes := List UInt8

/-- An ASCII string literal of the source as its byte sequence. -/
def lit (s : String) : Bytes := s.data.map (fun c => c.toNat.toUInt8)

/-- The verb `%d` of `fmt.Sprintf` applied to a non-negative integer. -/
def decimal (n : Nat) : Bytes := lit (Nat.repr n)

/-- A Go `map[string]V` as an association list. Reads go through `GoMap.get`,
which returns the first binding of the key; `GoMap.set` and `GoMap.delete`
drop every binding of the key, so a map built from `[]` binds each key once. -/
abbrev GoMap (β : Type) := List (Bytes × β)

namespace GoMap

variable {β : Type}

/-- The lookup `v, exists := m[k]`. -/
def get : GoMap β → Bytes → Option β
  | [], _ => none
  | (k', v) :: m, k => if k' = k then some v else get m k

/-- The builtin `delete(m, k)`. -/
def delete (m : GoMap β) (k : Bytes) : GoMap β :=
  m.filter (fun e => decide (e.1 ≠ k))

/-- The assignment `m[k] = v`. -/
def set (m : GoMap β) (k : Bytes) (v : β) : GoMap β :=
  (k, v) :: delete m k

/-- The builtin `len(m)`. -/
def len (m : GoMap β) : Nat := m.length

/-- The keys bound by the map. -/
def keys (m : GoMap β) : List Bytes := m.map Prod.fst

end GoMap

/-! ## Data model -/

/-- The address of a client object. -/
abbrev Ptr := Nat

/-- Modelled from the spec: the fields of `TCPClient` (declared outside
`server.go`) that the server code reads or writes: the fingerprint, the
group-dispatch flag, whether the connection has been closed, and the chunks
handed to `Write` while the connection was open. -/
structure TCPClient where
  Hash : Bytes
  GroupDispatch : Bool
  closed : Bool
  written : List Bytes
  deriving DecidableEq

/-- Modelled from the spec: lifecycle state of a Process Session. -/
inductive ProcessState
  | Created
  | Started
  | Terminated
  deriving DecidableEq, Repr

/-- Modelled from the spec: a Process Session (declared outside `server.go`):
process id, lifecycle state, and the attached live-output sink if any. -/
structure Process where
  Pid : Int
  State : ProcessState
  WebSocket : Option Nat
  deriving DecidableEq

/-- The message envelope read by the dispatcher and sent on rejection. A
message whose `Type` matches no case of the dispatcher is `OTHER`. -/
inductive Message
  | STDIO (Key : Bytes) (Data : Bytes)
  | PROCESS_STARTED (Key : Bytes) (Pid : Int)
  | PROCESS_STOPED (Key : Bytes) (Code : Int)
  | DUPLICATED_CLIENT
  | OTHER
  deriving DecidableEq

/-- Modelled from the spec: the fields of `TermiteClient` (declared outside
`server.go`) that the server code reads or writes: the fingerprint, whether
the connection has been closed, the messages encoded to the peer, the process
mapping and the key of the foreground process. -/
structure TermiteClient where
  Hash : Bytes
  closed : Bool
  encoded : List Message
  Processes : GoMap Process
  CurrentProcessKey : Bytes
  deriving DecidableEq

/-- The constants of `WebSocketMessageType`. -/
inductive WebSocketMessageType
  | CLIENT_CONNECTED
  | CLIENT_DUPLICATED
  | SERVER_DUPLICATED
  | COMPILING_TERMITE
  | COMPRESSING_TERMITE
  | UPLOADING_TERMITE
  deriving DecidableEq

/-- Severity of a log line. -/
inductive LogLevel
  | Info
  | Debug
  | Warn
  | Error
  | Success
  deriving DecidableEq

/-- What the server emits towards its collaborators, in order: log lines
(format string only), broadcasts on the web notification channel, and the
dummy connection dialled by `Stop`. -/
inductive Event
  | log (level : LogLevel) (format : String)
  | broadcastTCP (type : WebSocketMessageType) (client : Ptr)
  | broadcastTermite (type : WebSocketMessageType) (client : Ptr)
  | dial
  | listenerClosed
  deriving DecidableEq

/-- The struct `TCPServer`. The registries hold client addresses; `stopped` is
the number of signals pending in the cancellation channel, whose capacity is
`stoppedCap`. The creation timestamp is left out. -/
structure TCPServer where
  Host : Bytes
  GroupDispatch : Bool
  Port : Nat
  Clients : GoMap Ptr
  TermiteClients : GoMap Ptr
  Interfaces : List Bytes
  Hash : Bytes
  Encrypted : Bool
  hashFormat : Bytes
  stopped : Nat
  deriving DecidableEq

/-- Capacity of the channel made by `make(chan struct{}, 1)`. -/
def stoppedCap : Nat := 1

/-- The server together with the client objects it can reach and the events
it has emitted. -/
structure World where
  server : TCPServer
  tcp : Ptr → TCPClient
  termite : Ptr → TermiteClient
  events : List Event

namespace World

/-- Append an event. -/
def emit (w : World) (e : Event) : World :=
  { w with events := w.events ++ [e] }

/-- Store a TCP client object at its address. -/
def setTCP (w : World) (p : Ptr) (c : TCPClient) : World :=
  { w with tcp := Function.update w.tcp p c }

/-- Store a termite client object at its address. -/
def setTermite (w : World) (p : Ptr) (c : TermiteClient) : World :=
  { w with termite := Function.update w.termite p c }

/-- Modelled from the spec: `TCPClient.Close` closes the underlying connection. -/
def closeTCP (w : World) (p : Ptr) : World :=
  w.setTCP p { w.tcp p with closed := true }

/-- Modelled from the spec: `TermiteClient.Close` closes the underlying
connection. -/
def closeTermite (w : World) (p : Ptr) : World :=
  w.setTermite p { w.termite p with closed := true }

end World

/-! ## Server creation -/

/-- What `CreateTCPServer` asks of its surroundings: the hash function, whether
a server with a given fingerprint is already registered in the context, the
interfaces of the host, and whether resolving and binding succeed. -/
structure CreateEnv where
  MD5 : Bytes → Bytes
  registered : Bytes → Bool
  interfaces : List Bytes
  resolves : Bool
  listens : Bool

/-- The function `CreateTCPServer`: `none` is the `nil` result. The context-wide
bookkeeping (`Ctx.Servers`, the distributor routes) is outside the server
value and is not represented. -/
def CreateTCPServer (env : CreateEnv) (host : Bytes) (port : Nat)
    (hashFormat : Bytes) (encrypted : Bool) : Option TCPServer :=
  let service := host ++ lit ":" ++ decimal port
  if env.registered (env.MD5 service) then none
  else
    let hashFormat := if hashFormat = [] then lit "%i %u %m %o %t" else hashFormat
    let tcpServer : TCPServer :=
      { Host := host
        Port := port
        GroupDispatch := true
        Clients := []
        TermiteClients := []
        Interfaces := env.interfaces
        hashFormat := hashFormat
        Hash := env.MD5 (host ++ lit ":" ++ decimal port)
        stopped := 0
        Encrypted := encrypted }
    if !env.resolves then none
    else if !env.listens then none
    else some tcpServer

/-- The world right after a server has been created: no event emitted yet. -/
def World.init (s : TCPServer) (tcp : Ptr → TCPClient)
    (termite : Ptr → TermiteClient) : World :=
  { server := s, tcp := tcp, termite := termite, events := [] }

/-! ## Client registry -/

/-- Modelled from the spec: `TCPClient.GatherClientInfo` (outside `server.go`)
probes the peer and stores the fingerprint computed from the probed
attributes; `probe` is that fingerprint. -/
def TCPClient.GatherClientInfo (c : TCPClient) (probe : Bytes) : TCPClient :=
  { c with Hash := probe }

/-- The method `NotifyWebSocketDuplicateTCPClient`. -/
def NotifyWebSocketDuplicateTCPClient (w : World) (client : Ptr) : World :=
  w.emit (Event.broadcastTCP WebSocketMessageType.CLIENT_DUPLICATED client)

/-- The method `NotifyWebSocketOnlineTCPClient`. -/
def NotifyWebSocketOnlineTCPClient (w : World) (client : Ptr) : World :=
  w.emit (Event.broadcastTCP WebSocketMessageType.CLIENT_CONNECTED client)

/-- The method `NotifyWebSocketDuplicateTermiteClient`. -/
def NotifyWebSocketDuplicateTermiteClient (w : World) (client : Ptr) : World :=
  w.emit (Event.broadcastTermite WebSocketMessageType.CLIENT_DUPLICATED client)

/-- The method `NotifyWebSocketOnlineTermiteClient`. -/
def NotifyWebSocketOnlineTermiteClient (w : World) (client : Ptr) : World :=
  w.emit (Event.broadcastTermite WebSocketMessageType.CLIENT_CONNECTED client)

/-- The method `AddTCPClient`; `probe` is the fingerprint the identity probe
computes for this connection. -/
def AddTCPClient (w : World) (client : Ptr) (probe : Bytes) : World :=
  let w := w.setTCP client { w.tcp client with GroupDispatch := w.server.GroupDispatch }
  let w := w.setTCP client ((w.tcp client).GatherClientInfo probe)
  match GoMap.get w.server.Clients (w.tcp client).Hash with
  | some _ =>
    let w := w.emit (Event.log LogLevel.Error "Duplicated income connection detected!")
    let w := NotifyWebSocketDuplicateTCPClient w client
    w.closeTCP client
  | none =>
    let w := w.emit (Event.log LogLevel.Success "Fire in the hole: %s")
    let w := { w with server :=
      { w.server with Clients := GoMap.set w.server.Clients (w.tcp client).Hash client } }
    NotifyWebSocketOnlineTCPClient w client

/-- The method `DeleteTCPClient`. -/
def DeleteTCPClient (w : World) (client : Ptr) : World :=
  let w := { w with server :=
    { w.server with Clients := GoMap.delete w.server.Clients (w.tcp client).Hash } }
  w.closeTCP client

/-- The method `AddTermiteClient`; `encodeOk` tells whether sending the
rejection message succeeds. The dispatcher task spawned on success is
`TermiteMessageDispatcher` below. -/
def AddTermiteClient (w : World) (client : Ptr) (encodeOk : Bool) : World :=
  match GoMap.get w.server.TermiteClients (w.termite client).Hash with
  | some _ =>
    let w := w.emit (Event.log LogLevel.Error "Duplicated income connection detected!")
    let w :=
      if encodeOk then
        w.setTermite client
          { w.termite client with
            encoded := (w.termite client).encoded ++ [Message.DUPLICATED_CLIENT] }
      else w.emit (Event.log LogLevel.Error "Network error: %s")
    let w := NotifyWebSocketDuplicateTermiteClient w client
    w.closeTermite client
  | none =>
    let w := w.emit (Event.log LogLevel.Success "Encrypted fire in the hole: %s")
    let w := { w with server :=
      { w.server with
        TermiteClients := GoMap.set w.server.TermiteClients (w.termite client).Hash client } }
    NotifyWebSocketOnlineTermiteClient w client

/-- The method `DeleteTermiteClient`. -/
def DeleteTermiteClient (w : World) (client : Ptr) : World :=
  let w := { w with server :=
    { w.server with
      TermiteClients := GoMap.delete w.server.TermiteClients (w.termite client).Hash } }
  w.closeTermite client

/-- One call on the registry of a server. -/
inductive RegistryOp
  | addTCP (client : Ptr) (probe : Bytes)
  | addTermite (client : Ptr) (encodeOk : Bool)
  | deleteTCP (client : Ptr)
  | deleteTermite (client : Ptr)
  deriving DecidableEq

/-- Perform one registry call. -/
def RegistryOp.apply (w : World) : RegistryOp → World
  | RegistryOp.addTCP client probe => AddTCPClient w client probe
  | RegistryOp.addTermite client encodeOk => AddTermiteClient w client encodeOk
  | RegistryOp.deleteTCP client => DeleteTCPClient w client
  | RegistryOp.deleteTermite client => DeleteTermiteClient w client

/-- Perform a sequence of registry calls, first to last. -/
def runOps (w : World) (ops : List RegistryOp) : World :=
  ops.foldl RegistryOp.apply w


/-! ## Connection classifier -/

/-- The function `strings.Index`: the offset of the first occurrence of
`substr` in `s`, or `-1`. -/
def strings.Index : Bytes → Bytes → Int
  | [], substr => if substr = [] then 0 else -1
  | c :: s, substr =>
    if (c :: s).take substr.length = substr then 0
    else
      let r := strings.Index s substr
      if r < 0 then -1 else r + 1

/-- The function `strings.Trim` for a cutset of ASCII characters: leading and
trailing bytes of the cutset are removed. -/
def strings.Trim (s cutset : Bytes) : Bytes :=
  ((s.dropWhile (fun b => decide (b ∈ cutset))).reverse.dropWhile
    (fun b => decide (b ∈ cutset))).reverse

/-- How the first `conn.Read` of the classifier can fail. -/
inductive ReadError
  | timeout
  | other
  deriving DecidableEq

/-- What the peer of a freshly accepted connection does, as far as `Handle`
observes it: `first` is `buffer[:n]` after the first read and `err` its error;
`lines` are the results of the successive calls of `ReadUntilClean` (once the
list is used up every call returns the empty string); `probe` is the
fingerprint the identity probe computes, `probeOk` the boolean returned by the
termite probe, and `encodeOk` whether a rejection message can be sent. -/
structure Peer where
  first : Bytes
  err : Option ReadError
  lines : List Bytes
  probe : Bytes
  probeOk : Bool
  encodeOk : Bool

/-- Modelled from the spec: the object returned by `CreateTCPClient`, an open
connection with nothing written and no fingerprint yet. -/
def CreateTCPClient : TCPClient :=
  { Hash := [], GroupDispatch := false, closed := false, written := [] }

/-- Modelled from the spec: the object returned by `CreateTermiteClient`, an
open connection with no process session and no fingerprint yet. -/
def CreateTermiteClient : TermiteClient :=
  { Hash := [], closed := false, encoded := [], Processes := [], CurrentProcessKey := [] }

/-- Modelled from the spec: `TermiteClient.GatherClientInfo` (outside
`server.go`) probes the peer over the secured channel; on success it stores
the fingerprint and returns true. -/
def TermiteClient.GatherClientInfo (c : TermiteClient) (probe : Bytes) (probeOk : Bool) :
    TermiteClient × Bool :=
  if probeOk then ({ c with Hash := probe }, true) else (c, false)

/-- Modelled from the spec: `TCPClient.Write` sends the bytes on the
connection; nothing is sent on a closed connection. -/
def World.Write (w : World) (p : Ptr) (data : Bytes) : World :=
  if (w.tcp p).closed then w
  else w.setTCP p { w.tcp p with written := (w.tcp p).written ++ [data] }

/-- The header loop of `Handle`: the value of `httpHost` when the loop is left,
or `none` when a slice expression panics. -/
def Handle.headers (httpHost : Bytes) : List Bytes → Option Bytes
  | [] => some httpHost
  | line :: rest =>
    if line = [] then some httpHost
    else
      let delimiter := lit ":"
      let index := strings.Index line delimiter
      if index < 0 then none
      else
        let headerKey := line.take index.toNat
        let headerValue :=
          strings.Trim (line.drop (index.toNat + delimiter.length)) (lit " ")
        Handle.headers (if headerKey = lit "Host" then headerValue else httpHost) rest

/-- The method `Handle` for one accepted connection. `client` is the address
of the client object created for the connection, `URI2Command` the staging
collaborator `raas.URI2Command`. The result `none` is a runtime panic. -/
def Handle (URI2Command : Bytes → Bytes → Bytes) (w : World) (client : Ptr) (peer : Peer) :
    Option World :=
  if w.server.Encrypted then
    let w := w.setTermite client CreateTermiteClient
    let w := w.emit (Event.log LogLevel.Info "Gathering information from client...")
    let r := (w.termite client).GatherClientInfo peer.probe peer.probeOk
    let w := w.setTermite client r.1
    if r.2 then
      let w := w.emit (Event.log LogLevel.Info "A new encrypted income connection from %s")
      some (AddTermiteClient w client peer.encodeOk)
    else
      let w := w.emit
        (Event.log LogLevel.Info "Failed to check encrypted income connection from %s")
      some (w.closeTermite client)
  else
    let w := w.setTCP client CreateTCPClient
    let w := w.emit (Event.log LogLevel.Info "A new income connection from %s")
    let w :=
      match peer.err with
      | none => w
      | some ReadError.timeout => w.emit (Event.log LogLevel.Debug "Not requesting for service")
      | some ReadError.other => w.closeTCP client
    if peer.first = lit "GET " then
      let requestURI := peer.lines.headD []
      let httpHost := w.server.Host ++ lit ":" ++ decimal w.server.Port
      match Handle.headers httpHost (peer.lines.drop 2) with
      | none => none
      | some httpHost =>
        let w := w.emit (Event.log LogLevel.Debug "All header read")
        let command := URI2Command requestURI httpHost ++ lit "\n"
        let w := w.Write client (lit "HTTP/1.0 200 OK\r\n")
        let w := w.Write client (lit "Content-Length: " ++ decimal command.length ++ lit "\r\n")
        let w := w.Write client (lit "\r\n")
        let w := w.Write client command
        let w := w.closeTCP client
        some (w.emit (Event.log LogLevel.Info "A RaaS request from %s served"))
    else
      some (AddTCPClient w client peer.probe)

/-! ## Termite message dispatcher -/

/-- What one iteration of the dispatcher does outside the client object. -/
inductive Effect
  | stdout (data : Bytes)
  | webSocket (sink : Nat) (data : Bytes)
  | log (level : LogLevel) (format : String)
  | deleteTermiteClient
  deriving DecidableEq

/-- The `switch msg.Type` of `TermiteMessageDispatcher`: the client after the
message has been handled, and the effects of handling it. -/
def TermiteMessageDispatcher.route (client : TermiteClient) :
    Message → TermiteClient × List Effect
  | Message.STDIO key data =>
    match GoMap.get client.Processes key with
    | some process =>
      match process.WebSocket with
      | some ws => (client, [Effect.webSocket ws (lit "0" ++ data)])
      | none => (client, [Effect.stdout data])
    | none => (client, [Effect.log LogLevel.Error "No such key"])
  | Message.PROCESS_STARTED key pid =>
    match GoMap.get client.Processes key with
    | some process =>
      let process := { process with Pid := pid }
      let process := { process with State := ProcessState.Started }
      let client := { client with Processes := GoMap.set client.Processes key process }
      let client :=
        if process.WebSocket = none then { client with CurrentProcessKey := key } else client
      (client, [Effect.log LogLevel.Success "Process (%d) started"])
    | none => (client, [Effect.log LogLevel.Error "No such key"])
  | Message.PROCESS_STOPED key _code =>
    match GoMap.get client.Processes key with
    | some process =>
      let process := { process with State := ProcessState.Terminated }
      let client := { client with Processes := GoMap.set client.Processes key process }
      let client := { client with Processes := GoMap.delete client.Processes key }
      let client :=
        if process.WebSocket = none then { client with CurrentProcessKey := [] } else client
      (client, [Effect.log LogLevel.Error "Process (%d) stop: %d"])
    | none => (client, [Effect.log LogLevel.Error "No such key"])
  | _ => (client, [])

/-- How one iteration of the dispatcher loop ends. -/
inductive LoopStep
  | proceed (client : TermiteClient) (effects : List Effect)
  | leave (client : TermiteClient) (effects : List Effect)
  deriving DecidableEq

/-- One iteration of the loop of `TermiteMessageDispatcher`; `decoded` is the
result of `Decode`, `none` when it returns an error. -/
def TermiteMessageDispatcher.iteration (client : TermiteClient) : Option Message → LoopStep
  | none =>
    LoopStep.leave client
      [Effect.log LogLevel.Error "Read from client %s failed", Effect.deleteTermiteClient]
  | some msg =>
    let r := TermiteMessageDispatcher.route client msg
    LoopStep.proceed r.1 r.2

/-- The function `TermiteMessageDispatcher` run on the successive results of
`Decode`: the client and the effects once the loop has been left, or once
every given result has been consumed. -/
def TermiteMessageDispatcher (client : TermiteClient) :
    List (Option Message) → TermiteClient × List Effect
  | [] => (client, [])
  | decoded :: rest =>
    match TermiteMessageDispatcher.iteration client decoded with
    | LoopStep.leave client effects => (client, effects)
    | LoopStep.proceed client effects =>
      let r := TermiteMessageDispatcher client rest
      (r.1, effects ++ r.2)

/-- The state of the session bound to `key`, if the mapping binds it. -/
def TermiteClient.stateOf (client : TermiteClient) (key : Bytes) : Option ProcessState :=
  (GoMap.get client.Processes key).map Process.State

/-- The states in which the session bound to `key` is observed: before the
first message and after each message handled by the dispatcher; `none` when
the mapping does not bind the key. -/
def observedStates (key : Bytes) : TermiteClient → List Message → List (Option ProcessState)
  | client, [] => [client.stateOf key]
  | client, msg :: rest =>
    client.stateOf key ::
      observedStates key (TermiteMessageDispatcher (client) [some msg]).1 rest

/-- Position of an observation in the lifecycle: the three states in order,
then absence from the mapping. -/
def lifecycleRank : Option ProcessState → Nat
  | some ProcessState.Created => 0
  | some ProcessState.Started => 1
  | some ProcessState.Terminated => 2
  | none => 3

/-! ## Listener shutdown -/

/-- The loop `for _, client := range s.Clients` of `Stop`, over the entries
present when the loop starts; an entry removed before it is reached is not
visited. -/
def Stop.range : List (Bytes × Ptr) → World → World
  | [], w => w
  | (k, client) :: rest, w =>
    match GoMap.get w.server.Clients k with
    | some _ => Stop.range rest (DeleteTCPClient w client)
    | none => Stop.range rest w

/-- The method `Stop`. The send on the cancellation channel completes when a
slot of the buffer is free; `none` means that the send finds the buffer full
and the call cannot go on until some receiver drains the channel. -/
def Stop (w : World) : Option World :=
  let w := w.emit (Event.log LogLevel.Info "Stopping server: %s")
  if w.server.stopped < stoppedCap then
    let w := { w with server := { w.server with stopped := w.server.stopped + 1 } }
    let w := w.emit Event.dial
    some (Stop.range w.server.Clients w)
  else none

/-- The `select` at the head of an iteration of the accept loop of `Run`, the
only receiver of the cancellation channel: with a signal pending it takes the
signal, closes the listener and returns (`true`); otherwise the default branch
goes on to accept (`false`). -/
def Run.select (w : World) : World × Bool :=
  if 0 < w.server.stopped then
    (({ w with server := { w.server with stopped := w.server.stopped - 1 } } : World).emit
      Event.listenerClosed, true)
  else (w, false)

/-! ## Download -/

/-- The constant `blockSize := 1024 * 16` of `Download`. -/
def blockSize : Int := 1024 * 16

/-- The loop `for i := 0; i < totalBytes/blockSize; i++` of `Download` with
`remaining` iterations left: the `(offset, length)` arguments of the calls of
`ReadfileEx`. `ok offset length` tells whether the read and the write of the
block both succeed; the function returns at the first failure. -/
def Download.loop (ok : Int → Int → Bool) (firstBlockSize : Int) :
    Nat → Int → List (Int × Int)
  | 0, _ => []
  | remaining + 1, i =>
    let request := (firstBlockSize + i * blockSize, blockSize)
    if ok request.1 request.2 then request :: Download.loop ok firstBlockSize remaining (i + 1)
    else [request]

/-- The transfer part of `Download` for a file of `totalBytes` bytes: the
`(offset, length)` arguments of the calls of `ReadfileEx`, in order. Go
integer division and remainder truncate towards zero. -/
def Download (ok : Int → Int → Bool) (totalBytes : Int) : List (Int × Int) :=
  let firstBlockSize := Int.tmod totalBytes blockSize
  if ok 0 firstBlockSize then
    (0, firstBlockSize) ::
      Download.loop ok firstBlockSize (Int.tdiv totalBytes blockSize).toNat 0
  else [(0, firstBlockSize)]

/-! ## Registration sequences -/

/-- The registration policy shared by `AddTCPClient` and `AddTermiteClient`:
a fingerprint that is bound keeps its binding, a new one is bound to the
client. -/
def GoMap.register (m : GoMap Ptr) (r : Bytes × Ptr) : GoMap Ptr :=
  match GoMap.get m r.1 with
  | some _ => m
  | none => GoMap.set m r.1 r.2

/-- A registration: a call of `AddTCPClient` or of `AddTermiteClient`. -/
inductive Registration
  | tcp (client : Ptr) (probe : Bytes)
  | termite (client : Ptr) (encodeOk : Bool)
  deriving DecidableEq

/-- The registry call made by a registration. -/
def Registration.op : Registration → RegistryOp
  | Registration.tcp client probe => RegistryOp.addTCP client probe
  | Registration.termite client encodeOk => RegistryOp.addTermite client encodeOk

/-- The `(fingerprint, client)` pairs of the `AddTCPClient` calls of a
sequence, in order. -/
def tcpRegistrations : List Registration → List (Bytes × Ptr)
  | [] => []
  | Registration.tcp client probe :: rest => (probe, client) :: tcpRegistrations rest
  | Registration.termite _ _ :: rest => tcpRegistrations rest

/-- The `(fingerprint, client)` pairs of the `AddTermiteClient` calls of a
sequence, in order; `hashOf` gives the fingerprint stored in a client object. -/
def termiteRegistrations (hashOf : Ptr → Bytes) : List Registration → List (Bytes × Ptr)
  | [] => []
  | Registration.tcp _ _ :: rest => termiteRegistrations hashOf rest
  | Registration.termite client _ :: rest =>
    (hashOf client, client) :: termiteRegistrations hashOf rest

/-- The first client of a sequence of `(fingerprint, client)` pairs that
carries the fingerprint `h`. -/
def firstRegistered (h : Bytes) (rs : List (Bytes × Ptr)) : Option Ptr :=
  (rs.find? (fun r => decide (r.1 = h))).map Prod.snd

/-- Number of successful registrations of plain clients: the "client online"
broadcasts among the events. -/
def onlineTCP (events : List Event) : Nat :=
  events.countP (fun e =>
    match e with
    | Event.broadcastTCP WebSocketMessageType.CLIENT_CONNECTED _ => true
    | _ => false)

/-- Number of successful registrations of termite clients. -/
def onlineTermite (events : List Event) : Nat :=
  events.countP (fun e =>
    match e with
    | Event.broadcastTermite WebSocketMessageType.CLIENT_CONNECTED _ => true
    | _ => false)

/-! ## Live clients -/

/-- A client object of either kind. -/
inductive ClientRef
  | tcp (p : Ptr)
  | termite (p : Ptr)
  deriving DecidableEq

/-- The fingerprint stored in a client object. -/
def World.fingerprint (w : World) : ClientRef → Bytes
  | ClientRef.tcp p => (w.tcp p).Hash
  | ClientRef.termite p => (w.termite p).Hash

/-- Whether the connection of a client has been closed. -/
def World.isClosed (w : World) : ClientRef → Bool
  | ClientRef.tcp p => (w.tcp p).closed
  | ClientRef.termite p => (w.termite p).closed

/-- Whether the registry of its kind binds the fingerprint of a client to
that very client. -/
def World.registers (w : World) : ClientRef → Prop
  | ClientRef.tcp p => GoMap.get w.server.Clients (w.tcp p).Hash = some p
  | ClientRef.termite p => GoMap.get w.server.TermiteClients (w.termite p).Hash = some p

/-- Whether two clients are of the same kind. -/
def ClientRef.sameKind : ClientRef → ClientRef → Bool
  | ClientRef.tcp _, ClientRef.tcp _ => true
  | ClientRef.termite _, ClientRef.termite _ => true
  | _, _ => false

/-- The client a registry call hands to the server, for the two `Add` calls. -/
def RegistryOp.handed : RegistryOp → List ClientRef
  | RegistryOp.addTCP client _ => [ClientRef.tcp client]
  | RegistryOp.addTermite client _ => [ClientRef.termite client]
  | RegistryOp.deleteTCP _ => []
  | RegistryOp.deleteTermite _ => []

/-- The clients handed to the server by a sequence of calls. -/
def handedClients : List RegistryOp → List ClientRef
  | [] => []
  | op :: ops => op.handed ++ handedClients ops

/-- The clients handed to the server by `ops` whose connection is not closed
in the state `w`. -/
def liveClients (w : World) (ops : List RegistryOp) : List ClientRef :=
  (handedClients ops).filter (fun r => !w.isClosed r)

/-- The clients of a list have pairwise distinct fingerprints. -/
def DistinctFingerprints (w : World) (l : List ClientRef) : Prop :=
  ∀ a ∈ l, ∀ b ∈ l, w.fingerprint a = w.fingerprint b → a = b

/-- The clients of a list that are of the same kind have pairwise distinct
fingerprints. -/
def DistinctFingerprintsPerKind (w : World) (l : List ClientRef) : Prop :=
  ∀ a ∈ l, ∀ b ∈ l, a.sameKind b = true → w.fingerprint a = w.fingerprint b → a = b

/-- A `Delete` call is aimed at its own registration when the fingerprint of
the client it names is unbound or bound to that client, that is, not bound to
another client. `Add` calls are unrestricted. -/
def RegistryOp.ownRegistration (w : World) : RegistryOp → Bool
  | RegistryOp.deleteTCP client =>
    match GoMap.get w.server.Clients (w.tcp client).Hash with
    | none => true
    | some q => decide (q = client)
  | RegistryOp.deleteTermite client =>
    match GoMap.get w.server.TermiteClients (w.termite client).Hash with
    | none => true
    | some q => decide (q = client)
  | _ => true

/-- Every `Delete` call of the sequence is aimed at its own registration in
the state in which it is made. -/
def ownRegistrations : World → List RegistryOp → Bool
  | _, [] => true
  | w, op :: ops => op.ownRegistration w && ownRegistrations (op.apply w) ops

/-! ## Sample inputs -/

/-- An unencrypted server on `127.0.0.1:8080` with empty registries. -/
def sampleServer : TCPServer :=
  { Host := lit "127.0.0.1"
    GroupDispatch := true
    Port := 8080
    Clients := []
    TermiteClients := []
    Interfaces := []
    Hash := lit "127.0.0.1:8080"
    Encrypted := false
    hashFormat := lit "%i %u %m %o %t"
    stopped := 0 }

/-- Surroundings in which `sampleServer` is created: nothing registered yet,
the address resolves and binds, and the endpoint label serves as its own
fingerprint. -/
def sampleEnv : CreateEnv :=
  { MD5 := fun b => b
    registered := fun _ => false
    interfaces := []
    resolves := true
    listens := true }

/-- A world around `sampleServer` in which every client object is freshly
created. -/
def sampleWorld : World :=
  World.init sampleServer (fun _ => CreateTCPClient) (fun _ => CreateTermiteClient)

/-- Every client of `l` whose connection is open is bound to its own
fingerprint in the registry of its kind. -/
def LiveRegistered (w : World) (l : List ClientRef) : Prop :=
  ∀ r ∈ l, w.isClosed r = false → w.registers r

/-- Three connections with the same fingerprint: the first registers, the
second is rejected as a duplicate and then deleted, the third registers. -/
def staleDeleteOps : List RegistryOp :=
  [RegistryOp.addTCP 0 (lit "F"), RegistryOp.addTCP 1 (lit "F"), RegistryOp.deleteTCP 1,
    RegistryOp.addTCP 2 (lit "F")]

/-- Two connections with the same fingerprint and one with another, each
deleted only while it holds its own registration. -/
def ownDeleteOps : List RegistryOp :=
  [RegistryOp.addTCP 0 (lit "F"), RegistryOp.addTCP 1 (lit "F"), RegistryOp.deleteTCP 0,
    RegistryOp.addTCP 2 (lit "F"), RegistryOp.addTCP 3 (lit "G"),
    RegistryOp.addTermite 0 true, RegistryOp.deleteTermite 0]

/-- The process key a message refers to, for the three messages routed to a
Process Session. -/
def Message.key? : Message → Option Bytes
  | Message.STDIO key _ => some key
  | Message.PROCESS_STARTED key _ => some key
  | Message.PROCESS_STOPED key _ => some key
  | _ => none

/-- A termite client with one session waiting for its start confirmation and
one started session attached to a viewer. -/
def sampleTermite : TermiteClient :=
  { Hash := lit "T"
    closed := false
    encoded := []
    Processes :=
      [(lit "a", { Pid := 0, State := ProcessState.Created, WebSocket := none }),
       (lit "b", { Pid := 7, State := ProcessState.Started, WebSocket := some 1 })]
    CurrentProcessKey := [] }

/-- A message sequence that starts session `a`, feeds it, stops it, and then
names it again. -/
def sampleMessages : List Message :=
  [Message.STDIO (lit "a") (lit "x"), Message.PROCESS_STARTED (lit "a") 41,
    Message.PROCESS_STARTED (lit "a") 42, Message.STDIO (lit "a") (lit "y"),
    Message.PROCESS_STOPED (lit "a") 0, Message.PROCESS_STARTED (lit "a") 43,
    Message.PROCESS_STOPED (lit "a") 1]

/-! ## Laying out read requests -/

/-- The requests of a list are laid end to end from the offset `a`: each
starts where the one before it ends, and none has a negative length. -/
def ContiguousFrom : Int → List (Int × Int) → Prop
  | _, [] => True
  | a, r :: l => r.1 = a ∧ 0 ≤ r.2 ∧ ContiguousFrom (a + r.2) l

/-- Whether the byte at position `b` lies in the range of a request. -/
def covers (b : Int) (r : Int × Int) : Bool :=
  decide (r.1 ≤ b ∧ b < r.1 + r.2)

/-! ## The Host header, in the words of the specification -/

/-- A well-formed header line: not empty, with a colon. -/
abbrev wellFormedHeader (line : Bytes) : Prop := line ≠ [] ∧ (58 : UInt8) ∈ line

/-- The name of a header line: what stands before its first colon. -/
def specHeaderName (line : Bytes) : Bytes :=
  line.takeWhile (fun b => decide (b ≠ 58))

/-- The value of a header line: what follows its first colon, surrounding
spaces removed. -/
def specHeaderValue (line : Bytes) : Bytes :=
  (((line.dropWhile (fun b => decide (b ≠ 58))).drop 1).dropWhile
    (fun b => decide (b = 32))).rdropWhile (fun b => decide (b = 32))

/-- The host of a request: the value of the last header named `Host` when
there is one, the given default otherwise. -/
def specHost (default : Bytes) (headers : List Bytes) : Bytes :=
  match (headers.filter (fun l => decide (specHeaderName l = lit "Host"))).getLast? with
  | some l => specHeaderValue l
  | none => default

/-- The first read of a connection that sends an HTTP request line: the four
bytes `GET `, then the request target, the version and the header lines
followed by the blank line. -/
def httpPeer (target version : Bytes) (headers : List Bytes) : Peer :=
  { first := lit "GET "
    err := none
    lines := target :: version :: (headers ++ [[]])
    probe := []
    probeOk := false
    encodeOk := false }

/-- A staging collaborator for the sample runs: it answers `sh` whatever the
request. -/
def sampleURI2Command : Bytes → Bytes → Bytes := fun _ _ => lit "sh"

/-- A connection on which the first read fails with an error that is not a
timeout, for instance a peer that resets at once. -/
def failedReadPeer : Peer :=
  { first := []
    err := some ReadError.other
    lines := []
    probe := lit "F"
    probeOk := false
    encodeOk := false }

/-- Five registrations: two plain clients share the fingerprint `F`, and the
two termite clients share the empty fingerprint of a fresh object. -/
def sampleRegistrations : List Registration :=
  [Registration.tcp 0 (lit "F"), Registration.termite 0 true, Registration.tcp 1 (lit "F"),
    Registration.tcp 2 (lit "G"), Registration.termite 1 false]

/-- A termite client whose mapping holds a session stored as Terminated. -/
def terminatedTermite : TermiteClient :=
  { Hash := lit "T"
    closed := false
    encoded := []
    Processes := [(lit "a", { Pid := 7, State := ProcessState.Terminated, WebSocket := none })]
    CurrentProcessKey := [] }

/-! ## Lemmas on Go maps -/

namespace GoMap

variable {β : Type}

theorem delete_cons (k' : Bytes) (v : β) (m : GoMap β) (k : Bytes) :
    delete ((k', v) :: m) k = if k' = k then delete m k else (k', v) :: delete m k := by
  by_cases h : k' = k <;> simp [delete, List.filter, h]

theorem get_cons (k' : Bytes) (v : β) (m : GoMap β) (k : Bytes) :
    get ((k', v) :: m) k = if k' = k then some v else get m k := rfl

theorem get_delete_self (m : GoMap β) (k : Bytes) : get (delete m k) k = none := by
  induction m with
  | nil => rfl
  | cons e m ih =>
    obtain ⟨k', v⟩ := e
    rw [delete_cons]
    by_cases h : k' = k
    · rw [if_pos h]; exact ih
    · rw [if_neg h, get_cons, if_neg h]; exact ih

theorem get_delete_ne (m : GoMap β) {k k' : Bytes} (hne : k' ≠ k) :
    get (delete m k) k' = get m k' := by
  induction m with
  | nil => rfl
  | cons e m ih =>
    obtain ⟨k₀, v⟩ := e
    rw [delete_cons, get_cons]
    by_cases h : k₀ = k
    · have h' : k₀ ≠ k' := fun e => hne (e.symm.trans h)
      rw [if_pos h, if_neg h']; exact ih
    · rw [if_neg h, get_cons]
      by_cases h2 : k₀ = k'
      · rw [if_pos h2, if_pos h2]
      · rw [if_neg h2, if_neg h2]; exact ih

theorem delete_of_get_none (m : GoMap β) (k : Bytes) (h : get m k = none) :
    delete m k = m := by
  induction m with
  | nil => rfl
  | cons e m ih =>
    obtain ⟨k', v⟩ := e
    rw [get_cons] at h
    by_cases hk : k' = k
    · rw [if_pos hk] at h; cases h
    · rw [if_neg hk] at h
      rw [delete_cons, if_neg hk, ih h]

theorem get_set_self (m : GoMap β) (k : Bytes) (v : β) : get (set m k v) k = some v := by
  simp [set, get]

theorem get_set_ne (m : GoMap β) {k k' : Bytes} (v : β) (hne : k' ≠ k) :
    get (set m k v) k' = get m k' := by
  have h' : k ≠ k' := fun e => hne e.symm
  simp only [set, get, h', if_false]
  exact get_delete_ne m hne

theorem mem_keys_iff (m : GoMap β) (k : Bytes) : k ∈ keys m ↔ get m k ≠ none := by
  induction m with
  | nil => simp [keys, get]
  | cons e m ih =>
    obtain ⟨k', v⟩ := e
    by_cases hk : k' = k
    · simp [keys, get, hk]
    · have hk' : k ≠ k' := fun e => hk e.symm
      simp only [keys, List.map_cons, List.mem_cons, hk', false_or, get, hk, if_false]
      exact ih

theorem delete_delete_self (m : GoMap β) (k : Bytes) : delete (delete m k) k = delete m k :=
  delete_of_get_none _ _ (get_delete_self m k)

theorem delete_set_self (m : GoMap β) (k : Bytes) (v : β) :
    delete (set m k v) k = delete m k := by
  rw [set, delete_cons, if_pos rfl, delete_delete_self]

end GoMap

/-! ## The registration policy -/

theorem GoMap.get_register (m : GoMap Ptr) (r : Bytes × Ptr) (h : Bytes) :
    GoMap.get (GoMap.register m r) h =
      match GoMap.get m h with
      | some v => some v
      | none => if r.1 = h then some r.2 else none := by
  unfold GoMap.register
  cases hr : GoMap.get m r.1 with
  | some v =>
    by_cases e : r.1 = h
    · subst e; simp [hr]
    · cases GoMap.get m h <;> simp [e]
  | none =>
    by_cases e : r.1 = h
    · subst e; simp [GoMap.get_set_self, hr]
    · have e' : h ≠ r.1 := fun x => e x.symm
      simp only [GoMap.get_set_ne m r.2 e', if_neg e]
      cases GoMap.get m h <;> rfl

theorem GoMap.register_of_bound (m : GoMap Ptr) (r : Bytes × Ptr)
    (h : GoMap.get m r.1 ≠ none) : GoMap.register m r = m := by
  unfold GoMap.register
  cases hr : GoMap.get m r.1 with
  | some v => rfl
  | none => exact absurd hr h

theorem GoMap.len_register (m : GoMap Ptr) (r : Bytes × Ptr) :
    GoMap.len (GoMap.register m r) =
      GoMap.len m + (if GoMap.get m r.1 = none then 1 else 0) := by
  unfold GoMap.register
  cases hr : GoMap.get m r.1 with
  | some v => simp
  | none => simp [GoMap.set, GoMap.len, GoMap.delete_of_get_none m r.1 hr]

theorem GoMap.nodup_keys_register (m : GoMap Ptr) (r : Bytes × Ptr)
    (h : (GoMap.keys m).Nodup) : (GoMap.keys (GoMap.register m r)).Nodup := by
  unfold GoMap.register
  cases hr : GoMap.get m r.1 with
  | some v => exact h
  | none =>
    have hk : r.1 ∉ GoMap.keys m := fun hm => (GoMap.mem_keys_iff m r.1).1 hm hr
    simp only [GoMap.set, GoMap.delete_of_get_none m r.1 hr, GoMap.keys, List.map_cons]
    exact List.nodup_cons.2 ⟨hk, h⟩

theorem get_foldl_register (rs : List (Bytes × Ptr)) (m : GoMap Ptr) (h : Bytes) :
    GoMap.get (rs.foldl GoMap.register m) h =
      match GoMap.get m h with
      | some v => some v
      | none => firstRegistered h rs := by
  induction rs generalizing m with
  | nil =>
    rw [List.foldl_nil]
    cases hg : GoMap.get m h <;> simp [firstRegistered]
  | cons r rs ih =>
    rw [List.foldl_cons, ih, GoMap.get_register]
    cases hg : GoMap.get m h with
    | some v => rfl
    | none =>
      by_cases e : r.1 = h
      · simp [firstRegistered, List.find?, e]
      · simp [firstRegistered, List.find?, e]

theorem nodup_keys_foldl_register (rs : List (Bytes × Ptr)) (m : GoMap Ptr)
    (h : (GoMap.keys m).Nodup) : (GoMap.keys (rs.foldl GoMap.register m)).Nodup := by
  induction rs generalizing m with
  | nil => exact h
  | cons r rs ih => exact ih _ (GoMap.nodup_keys_register m r h)

theorem firstRegistered_ne_none (h : Bytes) (rs : List (Bytes × Ptr)) :
    firstRegistered h rs ≠ none ↔ h ∈ rs.map Prod.fst := by
  induction rs with
  | nil => simp [firstRegistered]
  | cons r rs ih =>
    by_cases e : r.1 = h
    · simp [firstRegistered, List.find?, e]
    · have e' : ¬ h = r.1 := fun x => e x.symm
      simp only [firstRegistered, List.find?, e, decide_False, List.map_cons,
        List.mem_cons, e', false_or]
      exact ih

theorem len_foldl_register (rs : List (Bytes × Ptr)) :
    GoMap.len (rs.foldl GoMap.register []) = (rs.map Prod.fst).dedup.length := by
  have hnd := nodup_keys_foldl_register rs [] (by simp [GoMap.keys])
  have hmem : ∀ h, h ∈ GoMap.keys (rs.foldl GoMap.register []) ↔ h ∈ rs.map Prod.fst := by
    intro h
    rw [GoMap.mem_keys_iff, get_foldl_register]
    exact firstRegistered_ne_none h rs
  have h1 : GoMap.len (rs.foldl GoMap.register []) =
      (GoMap.keys (rs.foldl GoMap.register [])).length := by
    simp [GoMap.len, GoMap.keys]
  rw [h1, ← List.toFinset_card_of_nodup hnd, ← List.card_toFinset]
  congr 1
  ext h
  simp only [List.mem_toFinset]
  exact hmem h

/-! ## What one registry call does to the server -/

theorem AddTCPClient_Clients (w : World) (p : Ptr) (h : Bytes) :
    (AddTCPClient w p h).server.Clients = GoMap.register w.server.Clients (h, p) := by
  unfold AddTCPClient GoMap.register
  simp only [World.setTCP, Function.update_same, TCPClient.GatherClientInfo]
  cases hg : GoMap.get w.server.Clients h <;>
    simp [World.emit, World.closeTCP, World.setTCP, NotifyWebSocketDuplicateTCPClient,
      NotifyWebSocketOnlineTCPClient]

theorem AddTCPClient_TermiteClients (w : World) (p : Ptr) (h : Bytes) :
    (AddTCPClient w p h).server.TermiteClients = w.server.TermiteClients := by
  unfold AddTCPClient
  simp only [World.setTCP, Function.update_same, TCPClient.GatherClientInfo]
  cases hg : GoMap.get w.server.Clients h <;>
    simp [World.emit, World.closeTCP, World.setTCP, NotifyWebSocketDuplicateTCPClient,
      NotifyWebSocketOnlineTCPClient]

theorem AddTCPClient_termite (w : World) (p : Ptr) (h : Bytes) :
    (AddTCPClient w p h).termite = w.termite := by
  unfold AddTCPClient
  simp only [World.setTCP, Function.update_same, TCPClient.GatherClientInfo]
  cases hg : GoMap.get w.server.Clients h <;>
    simp [World.emit, World.closeTCP, World.setTCP, NotifyWebSocketDuplicateTCPClient,
      NotifyWebSocketOnlineTCPClient]

theorem AddTCPClient_onlineTCP (w : World) (p : Ptr) (h : Bytes) :
    onlineTCP (AddTCPClient w p h).events =
      onlineTCP w.events + (if GoMap.get w.server.Clients h = none then 1 else 0) := by
  unfold AddTCPClient
  simp only [World.setTCP, Function.update_same, TCPClient.GatherClientInfo]
  cases hg : GoMap.get w.server.Clients h <;>
    simp [World.emit, World.closeTCP, World.setTCP, NotifyWebSocketDuplicateTCPClient,
      NotifyWebSocketOnlineTCPClient, onlineTCP, List.countP_append, List.countP_cons]

theorem AddTCPClient_onlineTermite (w : World) (p : Ptr) (h : Bytes) :
    onlineTermite (AddTCPClient w p h).events = onlineTermite w.events := by
  unfold AddTCPClient
  simp only [World.setTCP, Function.update_same, TCPClient.GatherClientInfo]
  cases hg : GoMap.get w.server.Clients h <;>
    simp [World.emit, World.closeTCP, World.setTCP, NotifyWebSocketDuplicateTCPClient,
      NotifyWebSocketOnlineTCPClient, onlineTermite, List.countP_append, List.countP_cons]

theorem AddTermiteClient_TermiteClients (w : World) (p : Ptr) (b : Bool) :
    (AddTermiteClient w p b).server.TermiteClients =
      GoMap.register w.server.TermiteClients ((w.termite p).Hash, p) := by
  unfold AddTermiteClient GoMap.register
  cases hg : GoMap.get w.server.TermiteClients (w.termite p).Hash <;> cases b <;>
    simp [World.emit, World.closeTermite, World.setTermite,
      NotifyWebSocketDuplicateTermiteClient, NotifyWebSocketOnlineTermiteClient]

theorem AddTermiteClient_Clients (w : World) (p : Ptr) (b : Bool) :
    (AddTermiteClient w p b).server.Clients = w.server.Clients := by
  unfold AddTermiteClient
  cases hg : GoMap.get w.server.TermiteClients (w.termite p).Hash <;> cases b <;>
    simp [World.emit, World.closeTermite, World.setTermite,
      NotifyWebSocketDuplicateTermiteClient, NotifyWebSocketOnlineTermiteClient]

theorem AddTermiteClient_tcp (w : World) (p : Ptr) (b : Bool) :
    (AddTermiteClient w p b).tcp = w.tcp := by
  unfold AddTermiteClient
  cases hg : GoMap.get w.server.TermiteClients (w.termite p).Hash <;> cases b <;>
    simp [World.emit, World.closeTermite, World.setTermite,
      NotifyWebSocketDuplicateTermiteClient, NotifyWebSocketOnlineTermiteClient]

theorem AddTermiteClient_Hash (w : World) (p : Ptr) (b : Bool) (q : Ptr) :
    ((AddTermiteClient w p b).termite q).Hash = (w.termite q).Hash := by
  unfold AddTermiteClient
  by_cases e : q = p
  · subst e
    cases hg : GoMap.get w.server.TermiteClients (w.termite q).Hash <;> cases b <;>
      simp [World.emit, World.closeTermite, World.setTermite,
        NotifyWebSocketDuplicateTermiteClient, NotifyWebSocketOnlineTermiteClient]
  · cases hg : GoMap.get w.server.TermiteClients (w.termite p).Hash <;> cases b <;>
      simp [World.emit, World.closeTermite, World.setTermite,
        NotifyWebSocketDuplicateTermiteClient, NotifyWebSocketOnlineTermiteClient,
        Function.update_noteq e]

theorem AddTermiteClient_onlineTermite (w : World) (p : Ptr) (b : Bool) :
    onlineTermite (AddTermiteClient w p b).events =
      onlineTermite w.events +
        (if GoMap.get w.server.TermiteClients (w.termite p).Hash = none then 1 else 0) := by
  unfold AddTermiteClient
  cases hg : GoMap.get w.server.TermiteClients (w.termite p).Hash <;> cases b <;>
    simp [World.emit, World.closeTermite, World.setTermite,
      NotifyWebSocketDuplicateTermiteClient, NotifyWebSocketOnlineTermiteClient,
      onlineTermite, List.countP_append, List.countP_cons]

theorem AddTermiteClient_onlineTCP (w : World) (p : Ptr) (b : Bool) :
    onlineTCP (AddTermiteClient w p b).events = onlineTCP w.events := by
  unfold AddTermiteClient
  cases hg : GoMap.get w.server.TermiteClients (w.termite p).Hash <;> cases b <;>
    simp [World.emit, World.closeTermite, World.setTermite,
      NotifyWebSocketDuplicateTermiteClient, NotifyWebSocketOnlineTermiteClient,
      onlineTCP, List.countP_append, List.countP_cons]

/-! ## Sequences of registrations -/

theorem runOps_cons (w : World) (op : RegistryOp) (ops : List RegistryOp) :
    runOps w (op :: ops) = runOps (op.apply w) ops := rfl

theorem registrations_Clients (regs : List Registration) (w : World) :
    (runOps w (regs.map Registration.op)).server.Clients =
      (tcpRegistrations regs).foldl GoMap.register w.server.Clients := by
  induction regs generalizing w with
  | nil => rfl
  | cons r regs ih =>
    cases r with
    | tcp p h =>
      rw [List.map_cons, runOps_cons, ih]
      simp only [Registration.op, RegistryOp.apply, tcpRegistrations, List.foldl_cons,
        AddTCPClient_Clients]
    | termite p b =>
      rw [List.map_cons, runOps_cons, ih]
      simp only [Registration.op, RegistryOp.apply, tcpRegistrations,
        AddTermiteClient_Clients]

theorem registrations_TermiteClients (regs : List Registration) (w : World) :
    (runOps w (regs.map Registration.op)).server.TermiteClients =
      (termiteRegistrations (fun p => (w.termite p).Hash) regs).foldl GoMap.register
        w.server.TermiteClients := by
  induction regs generalizing w with
  | nil => rfl
  | cons r regs ih =>
    cases r with
    | tcp p h =>
      rw [List.map_cons, runOps_cons, ih]
      simp only [Registration.op, RegistryOp.apply, termiteRegistrations,
        AddTCPClient_TermiteClients, AddTCPClient_termite]
    | termite p b =>
      rw [List.map_cons, runOps_cons, ih]
      have hH : (fun q => ((AddTermiteClient w p b).termite q).Hash) =
          fun q => (w.termite q).Hash := funext (AddTermiteClient_Hash w p b)
      simp only [Registration.op, RegistryOp.apply, termiteRegistrations, List.foldl_cons,
        AddTermiteClient_TermiteClients, hH]

theorem registrations_onlineTCP (regs : List Registration) (w : World) :
    onlineTCP (runOps w (regs.map Registration.op)).events + GoMap.len w.server.Clients =
      onlineTCP w.events + GoMap.len (runOps w (regs.map Registration.op)).server.Clients := by
  induction regs generalizing w with
  | nil => rfl
  | cons r regs ih =>
    rw [List.map_cons, runOps_cons]
    have h := ih (r.op.apply w)
    cases r with
    | tcp p c =>
      simp only [Registration.op, RegistryOp.apply] at h ⊢
      rw [AddTCPClient_onlineTCP, AddTCPClient_Clients, GoMap.len_register] at h
      dsimp only at h
      omega
    | termite p b =>
      simp only [Registration.op, RegistryOp.apply] at h ⊢
      rw [AddTermiteClient_onlineTCP, AddTermiteClient_Clients] at h
      omega

theorem registrations_onlineTermite (regs : List Registration) (w : World) :
    onlineTermite (runOps w (regs.map Registration.op)).events +
        GoMap.len w.server.TermiteClients =
      onlineTermite w.events +
        GoMap.len (runOps w (regs.map Registration.op)).server.TermiteClients := by
  induction regs generalizing w with
  | nil => rfl
  | cons r regs ih =>
    rw [List.map_cons, runOps_cons]
    have h := ih (r.op.apply w)
    cases r with
    | tcp p c =>
      simp only [Registration.op, RegistryOp.apply] at h ⊢
      rw [AddTCPClient_onlineTermite, AddTCPClient_TermiteClients] at h
      omega
    | termite p b =>
      simp only [Registration.op, RegistryOp.apply] at h ⊢
      rw [AddTermiteClient_onlineTermite, AddTermiteClient_TermiteClients,
        GoMap.len_register] at h
      dsimp only at h
      omega

/-- C1. Registrations applied to a server whose registries are empty: each
registry maps every fingerprint to the first client that registered with it;
its size is the number of successful registrations (the "client online"
broadcasts) and the number of distinct fingerprints registered; and in any
state a registration whose fingerprint is already bound leaves the registry
as it is. -/
theorem registrations_first_client_wins (s : TCPServer) (tcp : Ptr → TCPClient)
    (termite : Ptr → TermiteClient) (regs : List Registration)
    (hC : s.Clients = []) (hT : s.TermiteClients = []) :
    (∀ h, GoMap.get (runOps (World.init s tcp termite) (regs.map Registration.op)).server.Clients h
        = firstRegistered h (tcpRegistrations regs)) ∧
    (∀ h, GoMap.get
        (runOps (World.init s tcp termite) (regs.map Registration.op)).server.TermiteClients h
        = firstRegistered h (termiteRegistrations (fun p => (termite p).Hash) regs)) ∧
    GoMap.len (runOps (World.init s tcp termite) (regs.map Registration.op)).server.Clients
        = onlineTCP (runOps (World.init s tcp termite) (regs.map Registration.op)).events ∧
    GoMap.len (runOps (World.init s tcp termite) (regs.map Registration.op)).server.Clients
        = ((tcpRegistrations regs).map Prod.fst).dedup.length ∧
    GoMap.len (runOps (World.init s tcp termite) (regs.map Registration.op)).server.TermiteClients
        = onlineTermite (runOps (World.init s tcp termite) (regs.map Registration.op)).events ∧
    GoMap.len (runOps (World.init s tcp termite) (regs.map Registration.op)).server.TermiteClients
        = ((termiteRegistrations (fun p => (termite p).Hash) regs).map Prod.fst).dedup.length ∧
    (∀ (v : World) (p : Ptr) (h : Bytes), GoMap.get v.server.Clients h ≠ none →
      (AddTCPClient v p h).server.Clients = v.server.Clients) ∧
    (∀ (v : World) (p : Ptr) (b : Bool),
      GoMap.get v.server.TermiteClients (v.termite p).Hash ≠ none →
      (AddTermiteClient v p b).server.TermiteClients = v.server.TermiteClients) := by
  have e1 := registrations_Clients regs (World.init s tcp termite)
  have e2 := registrations_TermiteClients regs (World.init s tcp termite)
  have c1 := registrations_onlineTCP regs (World.init s tcp termite)
  have c2 := registrations_onlineTermite regs (World.init s tcp termite)
  simp only [World.init, hC, hT] at e1 e2 c1 c2
  simp only [World.init]
  refine ⟨?_, ?_, ?_, ?_, ?_, ?_, ?_, ?_⟩
  · intro h
    rw [e1, get_foldl_register]
    rfl
  · intro h
    rw [e2, get_foldl_register]
    rfl
  · simp [onlineTCP, GoMap.len] at c1
    exact c1.symm
  · rw [e1]
    exact len_foldl_register _
  · simp [onlineTermite, GoMap.len] at c2
    exact c2.symm
  · rw [e2]
    exact len_foldl_register _
  · intro v p h hb
    rw [AddTCPClient_Clients]
    exact GoMap.register_of_bound _ _ hb
  · intro v p b hb
    rw [AddTermiteClient_TermiteClients]
    exact GoMap.register_of_bound _ _ hb

/-- Witness of C1: five registrations on the sample server, whose registries
are empty. -/
theorem registrations_first_client_wins_witness :
    sampleServer.Clients = [] ∧ sampleServer.TermiteClients = [] ∧
    GoMap.get (runOps sampleWorld (sampleRegistrations.map Registration.op)).server.Clients
        (lit "F") = firstRegistered (lit "F") (tcpRegistrations sampleRegistrations) ∧
    firstRegistered (lit "F") (tcpRegistrations sampleRegistrations) = some 0 ∧
    (runOps sampleWorld (sampleRegistrations.map Registration.op)).server.Clients =
      [(lit "G", 2), (lit "F", 0)] ∧
    (runOps sampleWorld (sampleRegistrations.map Registration.op)).server.TermiteClients =
      [([], 0)] :=
  ⟨rfl, rfl,
    (registrations_first_client_wins sampleServer (fun _ => CreateTCPClient)
      (fun _ => CreateTermiteClient) sampleRegistrations rfl rfl).1 (lit "F"),
    by decide, by decide, by decide⟩

/-! ## Live clients and fingerprints -/

theorem AddTCPClient_tcp_other (w : World) (p : Ptr) (h : Bytes) {q : Ptr} (hq : q ≠ p) :
    (AddTCPClient w p h).tcp q = w.tcp q := by
  unfold AddTCPClient
  simp only [World.setTCP, Function.update_same, TCPClient.GatherClientInfo]
  cases hg : GoMap.get w.server.Clients h <;>
    simp [World.emit, World.closeTCP, World.setTCP, NotifyWebSocketDuplicateTCPClient,
      NotifyWebSocketOnlineTCPClient, Function.update_noteq hq]

theorem AddTCPClient_Hash_self (w : World) (p : Ptr) (h : Bytes) :
    ((AddTCPClient w p h).tcp p).Hash = h := by
  unfold AddTCPClient
  simp only [World.setTCP, Function.update_same, TCPClient.GatherClientInfo]
  cases hg : GoMap.get w.server.Clients h <;>
    simp [World.emit, World.closeTCP, World.setTCP, NotifyWebSocketDuplicateTCPClient,
      NotifyWebSocketOnlineTCPClient]

theorem AddTCPClient_closed_of_bound (w : World) (p : Ptr) (h : Bytes)
    (hb : GoMap.get w.server.Clients h ≠ none) : ((AddTCPClient w p h).tcp p).closed = true := by
  unfold AddTCPClient
  simp only [World.setTCP, Function.update_same, TCPClient.GatherClientInfo]
  cases hg : GoMap.get w.server.Clients h with
  | none => exact absurd hg hb
  | some v =>
    simp [World.emit, World.closeTCP, World.setTCP, NotifyWebSocketDuplicateTCPClient]

theorem AddTermiteClient_termite_other (w : World) (p : Ptr) (b : Bool) {q : Ptr}
    (hq : q ≠ p) : (AddTermiteClient w p b).termite q = w.termite q := by
  unfold AddTermiteClient
  cases hg : GoMap.get w.server.TermiteClients (w.termite p).Hash <;> cases b <;>
    simp [World.emit, World.closeTermite, World.setTermite,
      NotifyWebSocketDuplicateTermiteClient, NotifyWebSocketOnlineTermiteClient,
      Function.update_noteq hq]

theorem AddTermiteClient_closed_of_bound (w : World) (p : Ptr) (b : Bool)
    (hb : GoMap.get w.server.TermiteClients (w.termite p).Hash ≠ none) :
    ((AddTermiteClient w p b).termite p).closed = true := by
  unfold AddTermiteClient
  cases hg : GoMap.get w.server.TermiteClients (w.termite p).Hash with
  | none => exact absurd hg hb
  | some v =>
    cases b <;>
      simp [World.emit, World.closeTermite, World.setTermite,
        NotifyWebSocketDuplicateTermiteClient]

theorem DeleteTCPClient_Clients (w : World) (p : Ptr) :
    (DeleteTCPClient w p).server.Clients = GoMap.delete w.server.Clients (w.tcp p).Hash := rfl

theorem DeleteTCPClient_TermiteClients (w : World) (p : Ptr) :
    (DeleteTCPClient w p).server.TermiteClients = w.server.TermiteClients := rfl

theorem DeleteTCPClient_termite (w : World) (p : Ptr) :
    (DeleteTCPClient w p).termite = w.termite := rfl

theorem DeleteTCPClient_tcp_other (w : World) (p : Ptr) {q : Ptr} (hq : q ≠ p) :
    (DeleteTCPClient w p).tcp q = w.tcp q := by
  simp [DeleteTCPClient, World.closeTCP, World.setTCP, Function.update_noteq hq]

theorem DeleteTCPClient_closed (w : World) (p : Ptr) :
    ((DeleteTCPClient w p).tcp p).closed = true := by
  simp [DeleteTCPClient, World.closeTCP, World.setTCP]

theorem DeleteTermiteClient_TermiteClients (w : World) (p : Ptr) :
    (DeleteTermiteClient w p).server.TermiteClients =
      GoMap.delete w.server.TermiteClients (w.termite p).Hash := rfl

theorem DeleteTermiteClient_Clients (w : World) (p : Ptr) :
    (DeleteTermiteClient w p).server.Clients = w.server.Clients := rfl

theorem DeleteTermiteClient_tcp (w : World) (p : Ptr) :
    (DeleteTermiteClient w p).tcp = w.tcp := rfl

theorem DeleteTermiteClient_termite_other (w : World) (p : Ptr) {q : Ptr} (hq : q ≠ p) :
    (DeleteTermiteClient w p).termite q = w.termite q := by
  simp [DeleteTermiteClient, World.closeTermite, World.setTermite, Function.update_noteq hq]

theorem DeleteTermiteClient_closed (w : World) (p : Ptr) :
    ((DeleteTermiteClient w p).termite p).closed = true := by
  simp [DeleteTermiteClient, World.closeTermite, World.setTermite]

theorem LiveRegistered_apply (w : World) (l : List ClientRef) (op : RegistryOp)
    (hI : LiveRegistered w l) (ha : op.ownRegistration w = true) :
    LiveRegistered (op.apply w) (l ++ op.handed) := by
  intro r hr hopen
  cases op with
  | addTCP p h =>
    simp only [RegistryOp.apply] at hopen ⊢
    cases r with
    | tcp q =>
      by_cases e : q = p
      · subst e
        simp only [World.registers, AddTCPClient_Hash_self, AddTCPClient_Clients,
          GoMap.get_register]
        cases hb : GoMap.get w.server.Clients h with
        | none => simp
        | some v =>
          have hc := AddTCPClient_closed_of_bound w q h (by simp [hb])
          simp only [World.isClosed] at hopen
          rw [hc] at hopen
          cases hopen
      · have hm : ClientRef.tcp q ∈ l := by
          simpa [RegistryOp.handed, e] using hr
        simp only [World.isClosed, AddTCPClient_tcp_other w p h e] at hopen
        have hq := hI _ hm (by simpa [World.isClosed] using hopen)
        simp only [World.registers] at hq
        simp only [World.registers, AddTCPClient_tcp_other w p h e, AddTCPClient_Clients,
          GoMap.get_register, hq]
    | termite q =>
      have hm : ClientRef.termite q ∈ l := by
        simpa [RegistryOp.handed] using hr
      simp only [World.isClosed, AddTCPClient_termite] at hopen
      have hq := hI _ hm (by simpa [World.isClosed] using hopen)
      simpa [World.registers, AddTCPClient_termite, AddTCPClient_TermiteClients] using hq
  | addTermite p b =>
    simp only [RegistryOp.apply] at hopen ⊢
    cases r with
    | termite q =>
      by_cases e : q = p
      · subst e
        simp only [World.registers, AddTermiteClient_Hash, AddTermiteClient_TermiteClients,
          GoMap.get_register]
        cases hb : GoMap.get w.server.TermiteClients (w.termite q).Hash with
        | none => simp
        | some v =>
          have hc := AddTermiteClient_closed_of_bound w q b (by simp [hb])
          simp only [World.isClosed] at hopen
          rw [hc] at hopen
          cases hopen
      · have hm : ClientRef.termite q ∈ l := by
          simpa [RegistryOp.handed, e] using hr
        simp only [World.isClosed, AddTermiteClient_termite_other w p b e] at hopen
        have hq := hI _ hm (by simpa [World.isClosed] using hopen)
        simp only [World.registers] at hq
        simp only [World.registers, AddTermiteClient_termite_other w p b e,
          AddTermiteClient_TermiteClients, GoMap.get_register, hq]
    | tcp q =>
      have hm : ClientRef.tcp q ∈ l := by
        simpa [RegistryOp.handed] using hr
      simp only [World.isClosed, AddTermiteClient_tcp] at hopen
      have hq := hI _ hm (by simpa [World.isClosed] using hopen)
      simpa [World.registers, AddTermiteClient_tcp, AddTermiteClient_Clients] using hq
  | deleteTCP p =>
    simp only [RegistryOp.apply] at hopen ⊢
    have hm : r ∈ l := by simpa [RegistryOp.handed] using hr
    cases r with
    | tcp q =>
      by_cases e : q = p
      · subst e
        simp only [World.isClosed, DeleteTCPClient_closed] at hopen
        cases hopen
      · simp only [World.isClosed, DeleteTCPClient_tcp_other w p e] at hopen
        have hq := hI _ hm (by simpa [World.isClosed] using hopen)
        simp only [World.registers] at hq
        have hne : (w.tcp q).Hash ≠ (w.tcp p).Hash := by
          intro heq
          rw [heq] at hq
          simp only [RegistryOp.ownRegistration, hq, decide_eq_true_eq] at ha
          exact e ha
        simp only [World.registers, DeleteTCPClient_tcp_other w p e, DeleteTCPClient_Clients,
          GoMap.get_delete_ne _ hne, hq]
    | termite q =>
      simp only [World.isClosed, DeleteTCPClient_termite] at hopen
      have hq := hI _ hm (by simpa [World.isClosed] using hopen)
      simpa [World.registers, DeleteTCPClient_termite, DeleteTCPClient_TermiteClients] using hq
  | deleteTermite p =>
    simp only [RegistryOp.apply] at hopen ⊢
    have hm : r ∈ l := by simpa [RegistryOp.handed] using hr
    cases r with
    | termite q =>
      by_cases e : q = p
      · subst e
        simp only [World.isClosed, DeleteTermiteClient_closed] at hopen
        cases hopen
      · simp only [World.isClosed, DeleteTermiteClient_termite_other w p e] at hopen
        have hq := hI _ hm (by simpa [World.isClosed] using hopen)
        simp only [World.registers] at hq
        have hne : (w.termite q).Hash ≠ (w.termite p).Hash := by
          intro heq
          rw [heq] at hq
          simp only [RegistryOp.ownRegistration, hq, decide_eq_true_eq] at ha
          exact e ha
        simp only [World.registers, DeleteTermiteClient_termite_other w p e,
          DeleteTermiteClient_TermiteClients, GoMap.get_delete_ne _ hne, hq]
    | tcp q =>
      simp only [World.isClosed, DeleteTermiteClient_tcp] at hopen
      have hq := hI _ hm (by simpa [World.isClosed] using hopen)
      simpa [World.registers, DeleteTermiteClient_tcp, DeleteTermiteClient_Clients] using hq

theorem LiveRegistered_runOps (ops : List RegistryOp) (w : World) (l : List ClientRef)
    (hI : LiveRegistered w l) (ha : ownRegistrations w ops = true) :
    LiveRegistered (runOps w ops) (l ++ handedClients ops) := by
  induction ops generalizing w l with
  | nil => simpa [handedClients, runOps] using hI
  | cons op ops ih =>
    simp only [ownRegistrations, Bool.and_eq_true] at ha
    have h := ih (op.apply w) (l ++ op.handed) (LiveRegistered_apply w l op hI ha.1) ha.2
    simpa [handedClients, runOps_cons, List.append_assoc] using h

/-- C2, as amended. From any server state and for any sequence of registry
calls in which no `Delete` call names a client whose fingerprint is bound to
another client, the clients handed to the server whose connection is open are
bound to their own fingerprint, so those of the same kind have pairwise
distinct fingerprints. -/
theorem live_clients_distinct_per_kind (w : World) (ops : List RegistryOp)
    (ha : ownRegistrations w ops = true) :
    DistinctFingerprintsPerKind (runOps w ops) (liveClients (runOps w ops) ops) := by
  have hI := LiveRegistered_runOps ops w [] (fun r hr => absurd hr (List.not_mem_nil r)) ha
  rw [List.nil_append] at hI
  intro a hma b hmb hk hf
  simp only [liveClients, List.mem_filter, Bool.not_eq_true'] at hma hmb
  have ra := hI a hma.1 hma.2
  have rb := hI b hmb.1 hmb.2
  cases a with
  | tcp p =>
    cases b with
    | tcp q =>
      simp only [World.registers] at ra rb
      simp only [World.fingerprint] at hf
      rw [hf, rb] at ra
      rw [Option.some.inj ra]
    | termite q => simp [ClientRef.sameKind] at hk
  | termite p =>
    cases b with
    | tcp q => simp [ClientRef.sameKind] at hk
    | termite q =>
      simp only [World.registers] at ra rb
      simp only [World.fingerprint] at hf
      rw [hf, rb] at ra
      rw [Option.some.inj ra]

/-- Witness of C2 as amended: a run in which every delete is aimed at its own
registration. -/
theorem live_clients_distinct_per_kind_witness :
    ownRegistrations sampleWorld ownDeleteOps = true ∧
    liveClients (runOps sampleWorld ownDeleteOps) ownDeleteOps =
      [ClientRef.tcp 2, ClientRef.tcp 3] ∧
    DistinctFingerprintsPerKind (runOps sampleWorld ownDeleteOps)
      (liveClients (runOps sampleWorld ownDeleteOps) ownDeleteOps) :=
  ⟨by decide, by decide, live_clients_distinct_per_kind sampleWorld ownDeleteOps (by decide)⟩

/-- C2 as stated fails: after a rejected duplicate has been deleted, the
registration of the incumbent is gone although its connection is open, so the
next connection with the same fingerprint registers next to it. -/
theorem live_clients_distinct_counterexample :
    liveClients (runOps sampleWorld staleDeleteOps) staleDeleteOps =
      [ClientRef.tcp 0, ClientRef.tcp 2] ∧
    (runOps sampleWorld staleDeleteOps).fingerprint (ClientRef.tcp 0) = lit "F" ∧
    (runOps sampleWorld staleDeleteOps).fingerprint (ClientRef.tcp 2) = lit "F" ∧
    ¬ DistinctFingerprints (runOps sampleWorld staleDeleteOps)
      (liveClients (runOps sampleWorld staleDeleteOps) staleDeleteOps) := by
  refine ⟨by decide, by decide, by decide, ?_⟩
  intro h
  have h02 := h (ClientRef.tcp 0) (by decide) (ClientRef.tcp 2) (by decide) (by decide)
  exact absurd h02 (by decide)

/-! ## The dispatcher and the Process Session lifecycle -/

theorem dispatcher_single (client : TermiteClient) (msg : Message) :
    (TermiteMessageDispatcher client [some msg]).1 =
      (TermiteMessageDispatcher.route client msg).1 := rfl

theorem stateOf_route (key : Bytes) (client : TermiteClient) (msg : Message) :
    (TermiteMessageDispatcher.route client msg).1.stateOf key =
      match msg with
      | Message.PROCESS_STARTED k _ =>
        if k = key ∧ client.stateOf key ≠ none then some ProcessState.Started
        else client.stateOf key
      | Message.PROCESS_STOPED k _ => if k = key then none else client.stateOf key
      | _ => client.stateOf key := by
  cases msg with
  | STDIO k d =>
    simp only [TermiteMessageDispatcher.route]
    cases hg : GoMap.get client.Processes k with
    | none => rfl
    | some p => cases hw : p.WebSocket <;> simp [hw]
  | PROCESS_STARTED k pid =>
    simp only [TermiteMessageDispatcher.route]
    by_cases e : k = key
    · subst e
      cases hg : GoMap.get client.Processes k with
      | none => simp [TermiteClient.stateOf, hg]
      | some p =>
        cases hw : p.WebSocket <;>
          simp [TermiteClient.stateOf, hg, hw, GoMap.get_set_self]
    · have e' : key ≠ k := fun x => e x.symm
      cases hg : GoMap.get client.Processes k with
      | none => simp [e]
      | some p =>
        cases hw : p.WebSocket <;>
          simp [TermiteClient.stateOf, hw, GoMap.get_set_ne _ _ e', e]
  | PROCESS_STOPED k code =>
    simp only [TermiteMessageDispatcher.route]
    by_cases e : k = key
    · subst e
      cases hg : GoMap.get client.Processes k with
      | none => simp [TermiteClient.stateOf, hg]
      | some p =>
        cases hw : p.WebSocket <;>
          simp [TermiteClient.stateOf, hw, GoMap.get_delete_self]
    · have e' : key ≠ k := fun x => e x.symm
      cases hg : GoMap.get client.Processes k with
      | none => simp [e]
      | some p =>
        cases hw : p.WebSocket <;>
          simp [TermiteClient.stateOf, hw, GoMap.get_delete_ne _ e', GoMap.get_set_ne _ _ e', e]
  | DUPLICATED_CLIENT => rfl
  | OTHER => rfl

theorem route_forward (key : Bytes) (client : TermiteClient) (msg : Message)
    (h : client.stateOf key ≠ some ProcessState.Terminated) :
    lifecycleRank (client.stateOf key) ≤
        lifecycleRank ((TermiteMessageDispatcher.route client msg).1.stateOf key) ∧
      (TermiteMessageDispatcher.route client msg).1.stateOf key ≠
        some ProcessState.Terminated := by
  rw [stateOf_route]
  cases msg with
  | STDIO k d => exact ⟨le_refl _, h⟩
  | PROCESS_STARTED k pid =>
    dsimp only
    split
    · rename_i hc
      refine ⟨?_, by simp⟩
      cases hs : client.stateOf key with
      | none => exact absurd hs hc.2
      | some s =>
        cases s with
        | Created => simp [lifecycleRank]
        | Started => simp [lifecycleRank]
        | Terminated => exact absurd hs h
    · exact ⟨le_refl _, h⟩
  | PROCESS_STOPED k code =>
    dsimp only
    split
    · refine ⟨?_, by simp⟩
      cases hs : client.stateOf key with
      | none => simp [lifecycleRank]
      | some s => cases s <;> simp [lifecycleRank]
    · exact ⟨le_refl _, h⟩
  | DUPLICATED_CLIENT => exact ⟨le_refl _, h⟩
  | OTHER => exact ⟨le_refl _, h⟩

theorem observedStates_forward (key : Bytes) (msgs : List Message) (client : TermiteClient)
    (h : client.stateOf key ≠ some ProcessState.Terminated) :
    ∀ x ∈ observedStates key client msgs,
      lifecycleRank (client.stateOf key) ≤ lifecycleRank x ∧
        x ≠ some ProcessState.Terminated := by
  induction msgs generalizing client with
  | nil =>
    intro x hx
    simp only [observedStates, List.mem_singleton] at hx
    subst hx
    exact ⟨le_refl _, h⟩
  | cons msg rest ih =>
    intro x hx
    simp only [observedStates, List.mem_cons, dispatcher_single] at hx
    rcases hx with hx | hx
    · subst hx
      exact ⟨le_refl _, h⟩
    · have hstep := route_forward key client msg h
      have := ih _ hstep.2 x hx
      exact ⟨le_trans hstep.1 this.1, this.2⟩

theorem observedStates_pairwise (key : Bytes) (msgs : List Message) (client : TermiteClient)
    (h : client.stateOf key ≠ some ProcessState.Terminated) :
    (observedStates key client msgs).Pairwise
      (fun a b => lifecycleRank a ≤ lifecycleRank b) := by
  induction msgs generalizing client with
  | nil => simp [observedStates]
  | cons msg rest ih =>
    simp only [observedStates, dispatcher_single, List.pairwise_cons]
    have hstep := route_forward key client msg h
    refine ⟨?_, ih _ hstep.2⟩
    intro x hx
    exact le_trans hstep.1 (observedStates_forward key rest _ hstep.2 x hx).1

theorem dedup_sublist_lifecycle (l : List ProcessState)
    (h : l.Pairwise (fun a b => lifecycleRank (some a) ≤ lifecycleRank (some b))) :
    l.dedup.Sublist
      [ProcessState.Created, ProcessState.Started, ProcessState.Terminated] := by
  haveI : IsAntisymm ProcessState
      (fun a b => lifecycleRank (some a) ≤ lifecycleRank (some b)) :=
    ⟨fun a b hab hba => by
      cases a <;> cases b <;> simp [lifecycleRank] at hab hba <;> rfl⟩
  have hs : (l.dedup).Pairwise (fun a b => lifecycleRank (some a) ≤ lifecycleRank (some b)) :=
    h.sublist (List.dedup_sublist l)
  have hsub : l.dedup ⊆
      [ProcessState.Created, ProcessState.Started, ProcessState.Terminated] := by
    intro s _
    cases s <;> simp
  have hp := List.subperm_of_subset (List.nodup_dedup l) hsub
  refine List.sublist_of_subperm_of_sorted hp hs ?_
  simp [List.Sorted, lifecycleRank]

/-- C3, as amended. For a session that is not already Terminated when the
dispatcher starts, and for every sequence of messages: the states in which the session is
observed never go backwards in the order Created, Started, Terminated, absent;
Terminated is never a state of a session kept in the mapping; the distinct
states observed form a subsequence of Created, Started, Terminated; and a
ProcessStopped message for a bound key sets the session to Terminated and
removes it, after which the key is unbound. -/
theorem session_state_only_moves_forward (key : Bytes) (client : TermiteClient)
    (msgs : List Message) (h : client.stateOf key ≠ some ProcessState.Terminated) :
    (observedStates key client msgs).Pairwise
        (fun a b => lifecycleRank a ≤ lifecycleRank b) ∧
    some ProcessState.Terminated ∉ observedStates key client msgs ∧
    ((observedStates key client msgs).reduceOption.dedup).Sublist
        [ProcessState.Created, ProcessState.Started, ProcessState.Terminated] ∧
    (∀ (c : TermiteClient) (code : Int) (p : Process), GoMap.get c.Processes key = some p →
      (TermiteMessageDispatcher.route c (Message.PROCESS_STOPED key code)).1.Processes =
          GoMap.delete
            (GoMap.set c.Processes key { p with State := ProcessState.Terminated }) key ∧
        (TermiteMessageDispatcher.route c (Message.PROCESS_STOPED key code)).1.stateOf key =
          none) := by
  have hp := observedStates_pairwise key msgs client h
  refine ⟨hp, ?_, ?_, ?_⟩
  · intro hm
    exact (observedStates_forward key msgs client h _ hm).2 rfl
  · apply dedup_sublist_lifecycle
    unfold List.reduceOption
    refine List.Pairwise.filterMap id ?_ hp
    intro a a' hr b hb b' hb'
    simp only [id, Option.mem_def] at hb hb'
    subst hb
    subst hb'
    exact hr
  · intro c code p hg
    refine ⟨?_, ?_⟩
    · simp only [TermiteMessageDispatcher.route, hg]
      cases hw : p.WebSocket <;> simp
    · rw [stateOf_route]
      simp

/-- Witness of C3 as amended: session `a` of the sample client starts as
Created. -/
theorem session_state_only_moves_forward_witness :
    sampleTermite.stateOf (lit "a") ≠ some ProcessState.Terminated ∧
    observedStates (lit "a") sampleTermite sampleMessages =
      [some ProcessState.Created, some ProcessState.Created, some ProcessState.Started,
        some ProcessState.Started, some ProcessState.Started, none, none, none] ∧
    (observedStates (lit "a") sampleTermite sampleMessages).Pairwise
        (fun a b => lifecycleRank a ≤ lifecycleRank b) :=
  ⟨by decide, by decide,
    (session_state_only_moves_forward (lit "a") sampleTermite sampleMessages (by decide)).1⟩

/-- C3 as stated fails: the dispatcher sets Started without looking at the
current state, so for a mapping that holds a session stored as Terminated a
ProcessStarted message for its key sets the session back to Started; the
states observed are Terminated, Started, which go backwards and are not a
subsequence of Created, Started, Terminated. -/
theorem session_state_only_moves_forward_counterexample :
    observedStates (lit "a") terminatedTermite [Message.PROCESS_STARTED (lit "a") 9] =
      [some ProcessState.Terminated, some ProcessState.Started] ∧
    ¬ (observedStates (lit "a") terminatedTermite
        [Message.PROCESS_STARTED (lit "a") 9]).Pairwise
        (fun a b => lifecycleRank a ≤ lifecycleRank b) ∧
    ¬ ((observedStates (lit "a") terminatedTermite
        [Message.PROCESS_STARTED (lit "a") 9]).reduceOption.dedup).Sublist
        [ProcessState.Created, ProcessState.Started, ProcessState.Terminated] := by
  have h : observedStates (lit "a") terminatedTermite [Message.PROCESS_STARTED (lit "a") 9] =
      [some ProcessState.Terminated, some ProcessState.Started] := by decide
  refine ⟨h, ?_, ?_⟩
  · rw [h]
    decide
  · rw [h]
    decide

/-- C4. A Stdio, ProcessStarted or ProcessStopped message whose key is not
bound in the process mapping: the iteration of the dispatcher ends normally,
the loop goes on with the remaining messages, and the client (every session of
the mapping and the foreground key) is exactly as before; the only effect is
the log line. -/
theorem unknown_key_leaves_client_unchanged (client : TermiteClient) (msg : Message)
    (key : Bytes) (hk : msg.key? = some key) (hn : GoMap.get client.Processes key = none) :
    TermiteMessageDispatcher.iteration client (some msg) =
        LoopStep.proceed client [Effect.log LogLevel.Error "No such key"] ∧
    (∀ rest : List (Option Message),
      TermiteMessageDispatcher client (some msg :: rest) =
        ((TermiteMessageDispatcher client rest).1,
          Effect.log LogLevel.Error "No such key" :: (TermiteMessageDispatcher client rest).2)) := by
  have hr : TermiteMessageDispatcher.route client msg =
      (client, [Effect.log LogLevel.Error "No such key"]) := by
    cases msg with
    | STDIO k d =>
      simp only [Message.key?, Option.some.injEq] at hk
      subst hk
      simp [TermiteMessageDispatcher.route, hn]
    | PROCESS_STARTED k pid =>
      simp only [Message.key?, Option.some.injEq] at hk
      subst hk
      simp [TermiteMessageDispatcher.route, hn]
    | PROCESS_STOPED k code =>
      simp only [Message.key?, Option.some.injEq] at hk
      subst hk
      simp [TermiteMessageDispatcher.route, hn]
    | DUPLICATED_CLIENT => simp [Message.key?] at hk
    | OTHER => simp [Message.key?] at hk
  refine ⟨?_, ?_⟩
  · simp [TermiteMessageDispatcher.iteration, hr]
  · intro rest
    simp [TermiteMessageDispatcher, TermiteMessageDispatcher.iteration, hr]

/-- Witness of C4: a ProcessStopped message for a key the sample client does
not bind. -/
theorem unknown_key_leaves_client_unchanged_witness :
    (Message.PROCESS_STOPED (lit "zz") 3).key? = some (lit "zz") ∧
    GoMap.get sampleTermite.Processes (lit "zz") = none ∧
    TermiteMessageDispatcher.iteration sampleTermite
        (some (Message.PROCESS_STOPED (lit "zz") 3)) =
      LoopStep.proceed sampleTermite [Effect.log LogLevel.Error "No such key"] :=
  ⟨rfl, by decide,
    (unknown_key_leaves_client_unchanged sampleTermite (Message.PROCESS_STOPED (lit "zz") 3)
      (lit "zz") rfl (by decide)).1⟩

/-- C5. After the dispatcher has handled a ProcessStopped message for a key,
the key is unbound in the process mapping and every other key is bound to the
same session as before. -/
theorem stopped_key_is_removed (client : TermiteClient) (key : Bytes) (code : Int) :
    GoMap.get (TermiteMessageDispatcher client
        [some (Message.PROCESS_STOPED key code)]).1.Processes key = none ∧
    (∀ k : Bytes, k ≠ key →
      GoMap.get (TermiteMessageDispatcher client
          [some (Message.PROCESS_STOPED key code)]).1.Processes k =
        GoMap.get client.Processes k) := by
  rw [dispatcher_single]
  cases hg : GoMap.get client.Processes key with
  | none =>
    refine ⟨?_, ?_⟩
    · simp [TermiteMessageDispatcher.route, hg]
    · intro k _
      simp [TermiteMessageDispatcher.route, hg]
  | some p =>
    refine ⟨?_, ?_⟩
    · cases hw : p.WebSocket <;>
        simp [TermiteMessageDispatcher.route, hg, hw, GoMap.get_delete_self]
    · intro k hk
      cases hw : p.WebSocket <;>
        simp [TermiteMessageDispatcher.route, hg, hw, GoMap.get_delete_ne _ hk,
          GoMap.get_set_ne _ _ hk]

/-! ## Download: the block layout -/

theorem blockSize_pos : 0 < blockSize := by decide

theorem loop_contiguous (ok : Int → Int → Bool) (f : Int) (n : Nat) (i : Int) :
    ContiguousFrom (f + i * blockSize) (Download.loop ok f n i) := by
  induction n generalizing i with
  | zero => trivial
  | succ n ih =>
    simp only [Download.loop]
    split
    · refine ⟨rfl, le_of_lt blockSize_pos, ?_⟩
      have h := ih (i + 1)
      have e : f + (i + 1) * blockSize = f + i * blockSize + blockSize := by ring
      rw [e] at h
      exact h
    · exact ⟨rfl, le_of_lt blockSize_pos, trivial⟩

theorem loop_all_ok (ok : Int → Int → Bool) (hok : ∀ o l, ok o l = true) (f : Int) (n : Nat)
    (i : Int) :
    Download.loop ok f n i =
      (List.range n).map (fun j : Nat => (f + (i + (j : Int)) * blockSize, blockSize)) := by
  induction n generalizing i with
  | zero => rfl
  | succ n ih =>
    simp only [Download.loop, hok, if_true]
    rw [List.range_succ_eq_map, List.map_cons, List.map_map, ih (i + 1)]
    congr 1
    · simp
    · apply List.map_congr_left
      intro j _
      simp only [Function.comp, Nat.succ_eq_add_one, Nat.cast_add, Nat.cast_one]
      congr 2
      ring

theorem loop_sum (ok : Int → Int → Bool) (hok : ∀ o l, ok o l = true) (f : Int) (n : Nat)
    (i : Int) : ((Download.loop ok f n i).map Prod.snd).sum = (n : Int) * blockSize := by
  induction n generalizing i with
  | zero => simp [Download.loop]
  | succ n ih =>
    simp only [Download.loop, hok, if_true, List.map_cons, List.sum_cons, ih (i + 1)]
    push_cast
    ring

theorem chain_of_contiguous (a : Int) (l : List (Int × Int)) (h : ContiguousFrom a l) :
    l.Chain' (fun r r' => r'.1 = r.1 + r.2) := by
  induction l generalizing a with
  | nil => exact List.chain'_nil
  | cons r l ih =>
    cases l with
    | nil => exact List.chain'_singleton r
    | cons r' l' =>
      obtain ⟨h1, _, h3⟩ := h
      refine List.chain'_cons.2 ⟨?_, ih _ h3⟩
      rw [h3.1, h1]

theorem covered_once (b a : Int) (l : List (Int × Int)) (h : ContiguousFrom a l) :
    l.countP (covers b) =
      if a ≤ b ∧ b < a + (l.map Prod.snd).sum then 1 else 0 := by
  induction l generalizing a with
  | nil =>
    have c : ¬ (a ≤ b ∧ b < a) := by omega
    simp [c]
  | cons r l ih =>
    obtain ⟨h1, h2, h3⟩ := h
    rw [List.countP_cons, ih _ h3, List.map_cons, List.sum_cons]
    simp only [covers, h1]
    have hnn : ∀ (a' : Int) (l' : List (Int × Int)), ContiguousFrom a' l' →
        0 ≤ (l'.map Prod.snd).sum := by
      intro a' l'
      induction l' generalizing a' with
      | nil => intro _; simp
      | cons x xs ihx =>
        intro hx
        rw [List.map_cons, List.sum_cons]
        exact add_nonneg hx.2.1 (ihx _ hx.2.2)
    have hl := hnn _ _ h3
    by_cases c1 : a ≤ b ∧ b < a + r.2
    · have c2 : ¬ (a + r.2 ≤ b ∧ b < a + r.2 + (l.map Prod.snd).sum) := by omega
      have c3 : a ≤ b ∧ b < a + (r.2 + (l.map Prod.snd).sum) := by omega
      simp [c1, c2, c3]
    · by_cases c2 : a + r.2 ≤ b ∧ b < a + r.2 + (l.map Prod.snd).sum
      · have c3 : a ≤ b ∧ b < a + (r.2 + (l.map Prod.snd).sum) := by omega
        simp [c1, c2, c3]
      · have c3 : ¬ (a ≤ b ∧ b < a + (r.2 + (l.map Prod.snd).sum)) := by omega
        simp [c1, c2, c3]

/-- C10. For a file of `totalBytes >= 0` bytes, on a run in which every read
and write succeeds, the requests issued by `Download` are `(0, totalBytes mod
blockSize)` followed by `(totalBytes mod blockSize + i * blockSize, blockSize)`
for `i` below `totalBytes / blockSize`; they start at offset 0, each starts
where the previous one ends, their lengths add up to `totalBytes`, and every
byte position of `[0, totalBytes)` lies in exactly one of them. Whatever
reads fail, the requests issued start at 0 and are laid end to end. -/
theorem download_requests_cover_file (ok : Int → Int → Bool) (totalBytes : Int)
    (h0 : 0 ≤ totalBytes) :
    ContiguousFrom 0 (Download ok totalBytes) ∧
    (Download ok totalBytes).Chain' (fun r r' => r'.1 = r.1 + r.2) ∧
    ((∀ o l, ok o l = true) →
      Download ok totalBytes =
          (0, totalBytes % 16384) ::
            (List.range (totalBytes / 16384).toNat).map
              (fun i : Nat => (totalBytes % 16384 + (i : Int) * 16384, 16384)) ∧
        ((Download ok totalBytes).map Prod.snd).sum = totalBytes ∧
        ∀ b : Int, 0 ≤ b → b < totalBytes →
          (Download ok totalBytes).countP (covers b) = 1) := by
  have hbs : (0 : Int) ≤ blockSize := le_of_lt blockSize_pos
  have hb16 : blockSize = 16384 := by decide
  have hm : Int.tmod totalBytes blockSize = totalBytes % 16384 := by
    rw [Int.tmod_eq_emod h0 hbs, hb16]
  have hd : Int.tdiv totalBytes blockSize = totalBytes / 16384 := by
    rw [Int.tdiv_eq_ediv h0 hbs, hb16]
  have hf : 0 ≤ Int.tmod totalBytes blockSize := Int.tmod_nonneg _ h0
  have hc : ContiguousFrom 0 (Download ok totalBytes) := by
    unfold Download
    dsimp only
    split
    · refine ⟨rfl, hf, ?_⟩
      have h := loop_contiguous ok (Int.tmod totalBytes blockSize)
        (Int.tdiv totalBytes blockSize).toNat 0
      simpa using h
    · exact ⟨rfl, hf, trivial⟩
  refine ⟨hc, chain_of_contiguous 0 _ hc, ?_⟩
  intro hok
  have hsum : ((Download ok totalBytes).map Prod.snd).sum = totalBytes := by
    unfold Download
    simp only [hok, if_true, List.map_cons, List.sum_cons, loop_sum ok hok]
    rw [Int.toNat_of_nonneg (Int.tdiv_nonneg h0 hbs)]
    have := Int.tmod_add_tdiv totalBytes blockSize
    linarith [mul_comm blockSize (Int.tdiv totalBytes blockSize)]
  refine ⟨?_, hsum, ?_⟩
  · unfold Download
    simp only [hok, if_true, loop_all_ok ok hok, hm, hd]
    simp [hb16]
  · intro b hb0 hbt
    rw [covered_once b 0 _ hc, hsum]
    simp [hb0, hbt]

/-- Witness of C10: a file of 40000 bytes is read as one block of 7232 bytes
and two blocks of 16384 bytes. -/
theorem download_requests_cover_file_witness :
    (0 : Int) ≤ 40000 ∧
    Download (fun _ _ => true) 40000 = [(0, 7232), (7232, 16384), (23616, 16384)] ∧
    ContiguousFrom 0 (Download (fun _ _ => true) 40000) ∧
    ((Download (fun _ _ => true) 40000).map Prod.snd).sum = 40000 :=
  ⟨by decide, by decide, (download_requests_cover_file (fun _ _ => true) 40000 (by decide)).1,
    ((download_requests_cover_file (fun _ _ => true) 40000 (by decide)).2.2
      (fun _ _ => rfl)).2.1⟩

/-! ## The RaaS path of the classifier -/

theorem lit_colon : lit ":" = [58] := by decide

theorem lit_space : lit " " = [32] := by decide

theorem Index_colon (line : Bytes) :
    strings.Index line (lit ":") =
      if (58 : UInt8) ∈ line then ((specHeaderName line).length : Int) else -1 := by
  rw [lit_colon]
  induction line with
  | nil => simp [strings.Index]
  | cons c s ih =>
    by_cases hc : c = 58
    · subst hc
      simp [strings.Index, specHeaderName]
    · have h1 : ¬ ([c] = [(58 : UInt8)]) := by simpa using hc
      have h2 : ¬ ((58 : UInt8) = c) := fun e => hc e.symm
      simp only [strings.Index, List.length_singleton, List.take_succ_cons, List.take_zero,
        h1, if_false, ih, List.mem_cons, h2, false_or, specHeaderName]
      by_cases hm : (58 : UInt8) ∈ s
      · simp only [hm, if_true]
        have : ¬ ((((List.takeWhile (fun b => decide (b ≠ 58)) s).length : Int)) < 0) := by
          omega
        simp [this, List.takeWhile, hc]
      · simp [hm]

theorem take_specHeaderName (line : Bytes) :
    line.take (specHeaderName line).length = specHeaderName line := by
  induction line with
  | nil => rfl
  | cons c s ih =>
    by_cases hc : c = 58
    · simp [specHeaderName, List.takeWhile, hc]
    · simp only [specHeaderName] at ih
      simpa [specHeaderName, List.takeWhile, hc] using ih

theorem drop_specHeaderName (line : Bytes) :
    line.drop (specHeaderName line).length =
      line.dropWhile (fun b => decide (b ≠ 58)) := by
  induction line with
  | nil => rfl
  | cons c s ih =>
    by_cases hc : c = 58
    · simp [specHeaderName, List.takeWhile, List.dropWhile, hc]
    · simp only [specHeaderName] at ih
      simpa [specHeaderName, List.takeWhile, List.dropWhile, hc] using ih

theorem Trim_space (s : Bytes) :
    strings.Trim s (lit " ") =
      (s.dropWhile (fun b => decide (b = 32))).rdropWhile (fun b => decide (b = 32)) := by
  have hp : (fun b : UInt8 => decide (b ∈ lit " ")) = fun b => decide (b = 32) := by
    funext b
    rw [lit_space]
    simp
  simp only [strings.Trim, hp, List.rdropWhile]

theorem specHost_cons (default line : Bytes) (rest : List Bytes) :
    specHost default (line :: rest) =
      specHost (if specHeaderName line = lit "Host" then specHeaderValue line else default)
        rest := by
  unfold specHost
  by_cases hn : specHeaderName line = lit "Host"
  · rw [List.filter_cons_of_pos (by simpa using hn), if_pos hn]
    cases hf : rest.filter (fun l => decide (specHeaderName l = lit "Host")) with
    | nil => rfl
    | cons x xs =>
      rw [List.getLast?_cons_cons]
      cases hx : (x :: xs).getLast? with
      | none => simp at hx
      | some l => rfl
  · rw [List.filter_cons_of_neg (by simpa using hn), if_neg hn]

theorem headers_wellFormed (headers : List Bytes) (tail : List Bytes) (httpHost : Bytes)
    (hwf : ∀ l ∈ headers, wellFormedHeader l) :
    Handle.headers httpHost (headers ++ [] :: tail) = some (specHost httpHost headers) := by
  induction headers generalizing httpHost with
  | nil => simp [Handle.headers, specHost]
  | cons line rest ih =>
    have hl := hwf line (List.mem_cons_self _ _)
    have hr : ∀ l ∈ rest, wellFormedHeader l := fun l hm => hwf l (List.mem_cons_of_mem _ hm)
    rw [specHost_cons, ← ih _ hr, List.cons_append, Handle.headers]
    have hidx := Index_colon line
    rw [if_pos hl.2] at hidx
    have hnn : ¬ (strings.Index line (lit ":") < 0) := by rw [hidx]; omega
    simp only [hl.1, if_false, hnn]
    have hto : (strings.Index line (lit ":")).toNat = (specHeaderName line).length := by
      rw [hidx]; simp
    rw [hto, take_specHeaderName, Trim_space]
    have hlen : (lit ":").length = 1 := by rw [lit_colon]; rfl
    rw [hlen, ← List.drop_drop, drop_specHeaderName]
    rfl

/-- C7, as amended. On the RaaS path of `Handle` (unencrypted server, first
read `GET ` without a non-timeout error), for every request target and every
list of well-formed header lines followed by the blank line, `Handle` returns
and the bytes written to the connection are the status line, then
`Content-Length: N`, then the blank line, then the body, where the body is
`URI2Command(target, host)` followed by a newline, `N` is the byte length of
that body, and `host` is the trimmed value of the last header named `Host`, or
the server's own `host:port` when there is none. The connection is then closed
and no registry has changed. -/
theorem raas_response_bytes (URI2Command : Bytes → Bytes → Bytes) (w : World) (client : Ptr)
    (peer : Peer) (target version : Bytes) (headers tail : List Bytes)
    (hE : w.server.Encrypted = false) (hfirst : peer.first = lit "GET ")
    (herr : peer.err ≠ some ReadError.other)
    (hlines : peer.lines = target :: version :: (headers ++ [] :: tail))
    (hwf : ∀ l ∈ headers, wellFormedHeader l) :
    ∃ w', Handle URI2Command w client peer = some w' ∧
      (w'.tcp client).written.flatten =
        lit "HTTP/1.0 200 OK\r\n" ++
          (lit "Content-Length: " ++
            decimal
              (URI2Command target
                (specHost (w.server.Host ++ lit ":" ++ decimal w.server.Port) headers) ++
                  lit "\n").length ++
            lit "\r\n") ++
          lit "\r\n" ++
          (URI2Command target
            (specHost (w.server.Host ++ lit ":" ++ decimal w.server.Port) headers) ++
              lit "\n") ∧
      (w'.tcp client).closed = true ∧
      w'.server.Clients = w.server.Clients ∧
      w'.server.TermiteClients = w.server.TermiteClients := by
  have hh := headers_wellFormed headers tail
    (w.server.Host ++ lit ":" ++ decimal w.server.Port) hwf
  simp only [List.append_assoc] at hh
  cases he : peer.err with
  | none =>
    simp [Handle, hE, hfirst, hlines, he, hh, World.Write, World.setTCP, World.emit,
      World.closeTCP, CreateTCPClient]
  | some e =>
    cases e with
    | timeout =>
      simp [Handle, hE, hfirst, hlines, he, hh, World.Write, World.setTCP, World.emit,
        World.closeTCP, CreateTCPClient]
    | other => exact absurd he herr

/-- Witness of C7 as amended: `GET /x HTTP/1.1` with `Host: h` on the sample
server. -/
theorem raas_response_bytes_witness :
    sampleWorld.server.Encrypted = false ∧
    (∀ l ∈ [lit "Host: h"], wellFormedHeader l) ∧
    ∃ w', Handle sampleURI2Command sampleWorld 0
        (httpPeer (lit "/x") (lit "HTTP/1.1") [lit "Host: h"]) = some w' ∧
      (w'.tcp 0).written.flatten =
        lit "HTTP/1.0 200 OK\r\n" ++
          (lit "Content-Length: " ++
            decimal
              (sampleURI2Command (lit "/x")
                (specHost (sampleWorld.server.Host ++ lit ":" ++
                  decimal sampleWorld.server.Port) [lit "Host: h"]) ++ lit "\n").length ++
            lit "\r\n") ++
          lit "\r\n" ++
          (sampleURI2Command (lit "/x")
            (specHost (sampleWorld.server.Host ++ lit ":" ++
              decimal sampleWorld.server.Port) [lit "Host: h"]) ++ lit "\n") ∧
      (w'.tcp 0).closed = true ∧
      w'.server.Clients = sampleWorld.server.Clients ∧
      w'.server.TermiteClients = sampleWorld.server.TermiteClients :=
  ⟨rfl, by decide,
    raas_response_bytes sampleURI2Command sampleWorld 0
      (httpPeer (lit "/x") (lit "HTTP/1.1") [lit "Host: h"]) (lit "/x") (lit "HTTP/1.1")
      [lit "Host: h"] [] rfl rfl (by decide) rfl (by decide)⟩

/-- C7 as stated fails: the body written is the staging command followed by a
newline, and the announced length counts that newline. For the request
`GET /x HTTP/1.1`, `Host: h`, and a staging command `sh`, the bytes written
announce 3 bytes and end in `sh` and a newline, not 2 bytes and `sh`. -/
theorem raas_response_bytes_counterexample :
    (Handle sampleURI2Command sampleWorld 0
        (httpPeer (lit "/x") (lit "HTTP/1.1") [lit "Host: h"])).map
      (fun w' => (w'.tcp 0).written.flatten) =
      some (lit "HTTP/1.0 200 OK\r\nContent-Length: 3\r\n\r\nsh\n") ∧
    (Handle sampleURI2Command sampleWorld 0
        (httpPeer (lit "/x") (lit "HTTP/1.1") [lit "Host: h"])).map
      (fun w' => (w'.tcp 0).written.flatten) ≠
      some (lit "HTTP/1.0 200 OK\r\n" ++
        (lit "Content-Length: " ++
          decimal (sampleURI2Command (lit "/x") (lit "h")).length ++ lit "\r\n") ++
        lit "\r\n" ++ sampleURI2Command (lit "/x") (lit "h")) := by
  constructor <;> decide

/-- C6 at its failing input: the request `GET / HTTP/1.1` followed by the
header line `X`, which has no colon. `strings.Index` returns -1, the slice
`line[:index]` panics, and `Handle` neither responds nor closes. -/
theorem raas_header_without_colon_panics :
    strings.Index (lit "X") (lit ":") = -1 ∧
    Handle sampleURI2Command sampleWorld 0 (httpPeer (lit "/") (lit "HTTP/1.1") [lit "X"]) =
      none := by
  refine ⟨by decide, ?_⟩
  exact Option.isNone_iff_eq_none.mp (by decide)

/-- On the RaaS path, whenever `Handle` returns it has closed the connection
and has left both registries as they were. -/
theorem raas_never_registers (URI2Command : Bytes → Bytes → Bytes) (w w' : World)
    (client : Ptr) (peer : Peer) (hE : w.server.Encrypted = false)
    (hfirst : peer.first = lit "GET ") (hr : Handle URI2Command w client peer = some w') :
    (w'.tcp client).closed = true ∧ w'.server.Clients = w.server.Clients ∧
      w'.server.TermiteClients = w.server.TermiteClients := by
  have key : ∀ v : World, v.server = w.server →
      (match Handle.headers (v.server.Host ++ lit ":" ++ decimal v.server.Port)
          (peer.lines.drop 2) with
        | none => none
        | some httpHost =>
          some (((((((v.emit (Event.log LogLevel.Debug "All header read")).Write client
            (lit "HTTP/1.0 200 OK\r\n")).Write client
            (lit "Content-Length: " ++
              decimal (URI2Command (peer.lines.headD []) httpHost ++ lit "\n").length ++
              lit "\r\n")).Write client (lit "\r\n")).Write client
            (URI2Command (peer.lines.headD []) httpHost ++ lit "\n")).closeTCP client).emit
            (Event.log LogLevel.Info "A RaaS request from %s served"))) = some w' →
      (w'.tcp client).closed = true ∧ w'.server.Clients = w.server.Clients ∧
        w'.server.TermiteClients = w.server.TermiteClients := by
    intro v hv hr
    cases hh : Handle.headers (v.server.Host ++ lit ":" ++ decimal v.server.Port)
        (peer.lines.drop 2) with
    | none =>
      rw [hh] at hr
      cases hr
    | some host =>
      rw [hh] at hr
      simp only [Option.some.injEq] at hr
      subst hr
      refine ⟨by simp [World.closeTCP, World.setTCP, World.emit], ?_, ?_⟩
      · rw [← hv]
        simp only [World.closeTCP, World.setTCP, World.emit, World.Write]
        split_ifs <;> rfl
      · rw [← hv]
        simp only [World.closeTCP, World.setTCP, World.emit, World.Write]
        split_ifs <;> rfl
  simp only [Handle, hE, hfirst, Bool.false_eq_true, if_false, if_true] at hr
  cases he : peer.err with
  | none =>
    simp only [he] at hr
    exact key ((w.setTCP client CreateTCPClient).emit
      (Event.log LogLevel.Info "A new income connection from %s")) rfl hr
  | some e =>
    cases e with
    | timeout =>
      simp only [he] at hr
      exact key (((w.setTCP client CreateTCPClient).emit
        (Event.log LogLevel.Info "A new income connection from %s")).emit
        (Event.log LogLevel.Debug "Not requesting for service")) rfl hr
    | other =>
      simp only [he] at hr
      exact key (((w.setTCP client CreateTCPClient).emit
        (Event.log LogLevel.Info "A new income connection from %s")).closeTCP client) rfl hr

/-- C8 at its failing input: an unencrypted server with empty registries and a
connection whose first read fails with a non-timeout error. `Handle` closes
the connection and then goes on to `AddTCPClient`, which registers it. -/
theorem failed_read_is_still_registered :
    sampleWorld.server.Clients = [] ∧
    (Handle sampleURI2Command sampleWorld 0 failedReadPeer).map
        (fun w' => (w'.server.Clients, (w'.tcp 0).closed)) =
      some ([(lit "F", 0)], true) := by
  constructor <;> decide

/-- On an encrypted server a connection whose identity probe fails is closed
and leaves both registries as they were. -/
theorem encrypted_probe_failure_not_registered (URI2Command : Bytes → Bytes → Bytes)
    (w : World) (client : Ptr) (peer : Peer) (hE : w.server.Encrypted = true)
    (hp : peer.probeOk = false) :
    ∃ w', Handle URI2Command w client peer = some w' ∧ (w'.termite client).closed = true ∧
      w'.server.Clients = w.server.Clients ∧
      w'.server.TermiteClients = w.server.TermiteClients := by
  simp [Handle, hE, hp, TermiteClient.GatherClientInfo, World.setTermite, World.emit,
    World.closeTermite]

/-! ## Shutdown -/

theorem CreateTCPServer_fresh (env : CreateEnv) (host : Bytes) (port : Nat)
    (hashFormat : Bytes) (encrypted : Bool) (s : TCPServer)
    (h : CreateTCPServer env host port hashFormat encrypted = some s) :
    s.stopped = 0 ∧ s.Clients = [] ∧ s.TermiteClients = [] := by
  unfold CreateTCPServer at h
  dsimp only at h
  split at h
  · cases h
  · split at h
    · cases h
    · split at h
      · cases h
      · simp only [Option.some.injEq] at h
        subst h
        exact ⟨rfl, rfl, rfl⟩

theorem Stop_range_stopped (l : List (Bytes × Ptr)) (w : World) :
    (Stop.range l w).server.stopped = w.server.stopped := by
  induction l generalizing w with
  | nil => rfl
  | cons e l ih =>
    obtain ⟨k, p⟩ := e
    simp only [Stop.range]
    split
    · rw [ih]; rfl
    · rw [ih]

theorem Stop_of_free_slot (w : World) (h : w.server.stopped = 0) :
    ∃ w', Stop w = some w' ∧ w'.server.stopped = 1 := by
  unfold Stop
  dsimp only
  have hlt : (w.emit (Event.log LogLevel.Info "Stopping server: %s")).server.stopped <
      stoppedCap := by
    simp [World.emit, h, stoppedCap]
  rw [if_pos hlt]
  exact ⟨_, rfl, by rw [Stop_range_stopped]; simp [World.emit, h]⟩

theorem Stop_of_full_slot (w : World) (h : w.server.stopped = 1) : Stop w = none := by
  simp [Stop, World.emit, h, stoppedCap]

/-- C9, as amended. With the cancellation channel a buffer of capacity one
that only the accept loop of `Run` drains: on a server just created by
`CreateTCPServer` the first `Stop` returns and leaves the slot full; a second
`Stop` made while the slot is still full (the accept loop was never started or
has already returned) cannot complete its send; once a running accept loop
has taken the signal and returned, the slot is free and the second `Stop`
returns. -/
theorem stop_twice_needs_running_loop (env : CreateEnv) (host : Bytes) (port : Nat)
    (hashFormat : Bytes) (encrypted : Bool) (s : TCPServer) (tcp : Ptr → TCPClient)
    (termite : Ptr → TermiteClient)
    (h : CreateTCPServer env host port hashFormat encrypted = some s) :
    ∃ w1, Stop (World.init s tcp termite) = some w1 ∧ w1.server.stopped = 1 ∧
      Stop w1 = none ∧
      (Run.select w1).2 = true ∧ (Run.select w1).1.server.stopped = 0 ∧
      (Stop (Run.select w1).1).isSome = true := by
  have hs := (CreateTCPServer_fresh env host port hashFormat encrypted s h).1
  obtain ⟨w1, h1, h2⟩ := Stop_of_free_slot (World.init s tcp termite) hs
  have h3 : (Run.select w1).2 = true := by simp [Run.select, h2]
  have h4 : (Run.select w1).1.server.stopped = 0 := by simp [Run.select, h2, World.emit]
  obtain ⟨w2, h5, _⟩ := Stop_of_free_slot (Run.select w1).1 h4
  exact ⟨w1, h1, h2, Stop_of_full_slot w1 h2, h3, h4, by rw [h5]; rfl⟩

/-- Witness of C9 as amended: the sample server is what `CreateTCPServer`
returns for `127.0.0.1:8080`. -/
theorem stop_twice_needs_running_loop_witness :
    CreateTCPServer sampleEnv (lit "127.0.0.1") 8080 [] false = some sampleServer ∧
    ∃ w1, Stop sampleWorld = some w1 ∧ w1.server.stopped = 1 ∧
      Stop w1 = none ∧
      (Run.select w1).2 = true ∧ (Run.select w1).1.server.stopped = 0 ∧
      (Stop (Run.select w1).1).isSome = true :=
  ⟨by decide,
    stop_twice_needs_running_loop sampleEnv (lit "127.0.0.1") 8080 [] false sampleServer
      (fun _ => CreateTCPClient) (fun _ => CreateTermiteClient) (by decide)⟩

/-- C9 as stated fails: on a server just created, whose accept loop was never
started, the first `Stop` returns and the send of the second one finds the
single slot still full. -/
theorem stop_twice_counterexample :
    CreateTCPServer sampleEnv (lit "127.0.0.1") 8080 [] false = some sampleServer ∧
    (Stop sampleWorld).isSome = true ∧
    (Stop sampleWorld).map (fun w => w.server.stopped) = some stoppedCap ∧
    ((Stop sampleWorld).bind Stop).isSome = false := by
  refine ⟨by decide, by decide, by decide, by decide⟩

end Platypus
